import Mathlib

/-!
Verification development for the Super Meat Boy Archipelago client
(`smb_ap_client.py` together with its data module `smb_game_data.py`).

The Python source is shallowly embedded: pure helpers become Lean
functions, the game process's memory becomes an explicit `Mem` record of
partial read functions (a `none` read models a raised/`except`-swallowed
`pymem` failure), and the stateful client logic becomes explicit state
passing over small state records.  Python `float` times are modelled as
rationals (`ℚ`); only sign comparisons and `≤` against par-time constants
are involved, which are exact in either representation.  Python sets
become `Finset`, dicts become functions or association structures.
-/

namespace SMBAP

/-! ## Constants (`smb_game_data.py`) -/

def BASE_ID : Int := 7700000

-- Completion byte flags (from SMBLevel.cs LevelStatus)
def FLAG_BANDAGE : Nat := 0x01
def FLAG_COMPLETE : Nat := 0x02
def FLAG_WARP : Nat := 0x08

def MASK_CLEAR_BANDAGE : Nat := 0xFE
def MASK_CLEAR_WARP : Nat := 0xF7

-- Save data structure
def LIGHT_OFFSET : Int := 0x000
def DARK_OFFSET : Int := 0x0F0
def WARP_OFFSET : Int := 0x1E0
def SLOT_SIZE : Int := 0x0C
def TIME_BYTE : Int := 0
def COMP_BYTE : Int := 4
def NUM_WARP_SLOTS : Nat := 12

/-- `WORLD_BASES` dict after the client module applied its W7 correction
(`WORLD_BASES[7] = 0x0D08`, overriding the data module's `0x0F00`). -/
def WORLD_BASES (w : Int) : Option Int :=
  if w = 1 then some 0x0060
  else if w = 2 then some 0x02D0
  else if w = 3 then some 0x0540
  else if w = 4 then some 0x07B0
  else if w = 5 then some 0x0A20
  else if w = 6 then some 0x0C90
  else if w = 7 then some 0x0D08
  else none

/-- `NUM_LEVELS.get(world, 20)`: the dict maps worlds 1-7, with 5 levels for
world 6 and 20 for every other key, and `.get` defaults to 20. -/
def NUM_LEVELS (w : Int) : Nat :=
  if w = 6 then 5 else 20

def W6_DARK_OFFSET : Int := 0x3C

/-! ## Address resolvers

`smb_game_data.slot_addr/comp_addr/time_addr` are the originals; the
client module shadows them with W6/W7-aware wrappers that special-case
`(6, "dark")` and return `None` for the warp region of worlds 6 and 7,
delegating everything else to the originals (which by then see the
mutated `WORLD_BASES`).  `gd_` names are the data-module originals. -/

def gd_slot_addr (world : Int) (level_index : Int) (region : String) : Option Int :=
  match WORLD_BASES world with
  | none => none
  | some wb =>
    if region = "light" then some (wb + LIGHT_OFFSET + level_index * SLOT_SIZE)
    else if region = "dark" then some (wb + DARK_OFFSET + level_index * SLOT_SIZE)
    else if region = "warp" then some (wb + WARP_OFFSET + level_index * SLOT_SIZE)
    else none

def gd_comp_addr (world : Int) (level_index : Int) (region : String) : Option Int :=
  match gd_slot_addr world level_index region with
  | some sa => some (sa + COMP_BYTE)
  | none => none

def gd_time_addr (world : Int) (level_index : Int) (region : String) : Option Int :=
  match gd_slot_addr world level_index region with
  | some sa => some (sa + TIME_BYTE)
  | none => none

/-- Client-level `slot_addr` (W6/W7 overrides applied). -/
def slot_addr (world : Int) (index : Int) (region : String) : Option Int :=
  if world = 6 ∧ region = "dark" then
    some (0x0C90 + W6_DARK_OFFSET + index * SLOT_SIZE)
  else if world = 6 ∧ region = "warp" then none
  else if world = 7 ∧ region = "warp" then none
  else gd_slot_addr world index region

/-- Client-level `comp_addr` (W6/W7 overrides applied). -/
def comp_addr (world : Int) (index : Int) (region : String) : Option Int :=
  if world = 6 ∧ region = "dark" then
    some (0x0C90 + W6_DARK_OFFSET + index * SLOT_SIZE + COMP_BYTE)
  else if world = 6 ∧ region = "warp" then none
  else if world = 7 ∧ region = "warp" then none
  else gd_comp_addr world index region

/-- Client-level `time_addr` (W6/W7 overrides applied). -/
def time_addr (world : Int) (index : Int) (region : String) : Option Int :=
  if world = 6 ∧ region = "dark" then
    some (0x0C90 + W6_DARK_OFFSET + index * SLOT_SIZE + TIME_BYTE)
  else if world = 6 ∧ region = "warp" then none
  else if world = 7 ∧ region = "warp" then none
  else gd_time_addr world index region

/-! ## Bandage location tables (`smb_game_data.py`, authoritative from SMBDatabase) -/

/-- `LIGHT_BANDAGE_LEVELS` (1-indexed level numbers). -/
def LIGHT_BANDAGE_LEVELS (w : Nat) : List Nat :=
  match w with
  | 1 => [4, 7, 9, 11, 13, 18, 20]
  | 2 => [2, 5, 10, 13, 16, 18, 20]
  | 3 => [1, 2, 4, 10, 11, 18, 20]
  | 4 => [2, 6, 9, 13, 16, 17, 20]
  | 5 => [3, 5, 9, 12, 16, 18, 20]
  | _ => []

/-- `DARK_BANDAGE_LEVELS` (1-indexed level numbers). -/
def DARK_BANDAGE_LEVELS (w : Nat) : List Nat :=
  match w with
  | 1 => [3, 5, 10, 14, 15, 17, 19]
  | 2 => [4, 6, 7, 10, 12, 15, 16]
  | 3 => [3, 5, 6, 7, 14, 16, 19]
  | 4 => [3, 4, 8, 10, 14, 18, 19]
  | 5 => [4, 5, 8, 10, 11, 17, 18]
  | _ => []

/-- `WARP_BANDAGE_SLOTS` (1-indexed slot numbers, 1-12). -/
def WARP_BANDAGE_SLOTS (w : Nat) : List Nat :=
  match w with
  | 1 => [1, 2, 8, 9, 11, 12]
  | 2 => [1, 3, 7, 8, 10, 12]
  | 3 => [1, 3, 7, 9, 11, 12]
  | 4 => [2, 3, 8, 9, 11, 12]
  | 5 => [2, 3, 7, 9, 10, 11]
  | _ => []

/-- `build_corrected_bandage_data()` reduced to its (world, 0-index, region)
triples, in generated order (W1-W5 light, then dark, then warp); the names
attached in Python are presentation only and the sequential
`ap_id = BASE_ID + 201 + ap_idx` follows list position. -/
def correctedBandageTriples : List (Nat × Nat × String) :=
  ((List.range' 1 5).flatMap fun w =>
    (LIGHT_BANDAGE_LEVELS w).map fun lv => (w, lv - 1, "light"))
  ++ ((List.range' 1 5).flatMap fun w =>
    (DARK_BANDAGE_LEVELS w).map fun lv => (w, lv - 1, "dark"))
  ++ ((List.range' 1 5).flatMap fun w =>
    (WARP_BANDAGE_SLOTS w).map fun sl => (w, sl - 1, "warp"))

/-- `CORRECTED_BANDAGE_DATA` with its sequential AP ids
(`BASE_ID + 201 + ap_idx`). -/
def CORRECTED_BANDAGE_DATA : List ((Nat × Nat × String) × Int) :=
  (correctedBandageTriples.enum).map fun p => (p.2, BASE_ID + 201 + (p.1 : Int))

/-- The key set of `CORRECTED_BANDAGE_BY_ADDR`: the dict is built when
the data module loads, before the client mutates `WORLD_BASES[7]`, using
the data module's own `comp_addr`; as all entries live in worlds 1-5
this agrees with the client resolver anyway.  Entries whose address
resolves to `None` are skipped (`if ca is not None`). -/
def CORRECTED_BANDAGE_ADDRS : List Int :=
  correctedBandageTriples.filterMap fun t =>
    gd_comp_addr (t.1 : Int) (t.2.1 : Int) t.2.2

/-- `BANDAGE_GRANT_TARGETS` (client module): W1-W5 light levels without a
native bandage, then W1-W5 dark levels without a native bandage. -/
def BANDAGE_GRANT_TARGETS : List (Nat × Nat × String) :=
  ((List.range' 1 5).flatMap fun w =>
    ((List.range 20).filter fun li =>
      ¬ (LIGHT_BANDAGE_LEVELS w).contains (li + 1)).map fun li => (w, li, "light"))
  ++ ((List.range' 1 5).flatMap fun w =>
    ((List.range 20).filter fun li =>
      ¬ (DARK_BANDAGE_LEVELS w).contains (li + 1)).map fun li => (w, li, "dark"))

/-! ## Par times and A+ helpers (`smb_game_data.py`) -/

/-- `PAR_TIMES`, indexed `[world_0idx][type_idx][level_0idx]` with
`type_idx` 0=light, 1=dark, 2=warp. -/
def PAR_TIMES : List (List (List ℚ)) := [
  -- World 1
  [[3.0, 5.0, 9.0, 9.0, 11.0, 7.0, 5.0, 4.5, 8.0, 7.5, 8.0, 7.0, 7.0, 8.0, 10.0, 9.0, 9.0, 4.0, 20.0, 22.0],
   [3.0, 4.5, 10.0, 12.0, 10.0, 7.0, 5.0, 6.0, 11.0, 11.0, 13.0, 12.0, 12.0, 14.0, 18.0, 17.0, 12.0, 5.0, 17.0, 25.0],
   [5.0, 5.0, 5.0, 5.0, 5.0, 5.0, 5.0, 5.0, 5.0, 5.0, 5.0, 5.0]],
  -- World 2
  [[11.0, 10.5, 14.0, 9.5, 16.0, 15.0, 19.0, 25.0, 11.0, 12.0, 9.0, 11.0, 10.0, 16.0, 19.0, 15.0, 14.0, 16.5, 14.0, 24.0],
   [17.0, 14.0, 13.0, 14.0, 20.0, 19.0, 30.0, 33.0, 14.0, 13.0, 12.5, 22.5, 11.0, 31.0, 32.0, 16.0, 12.0, 17.0, 26.0, 36.0],
   [5.0, 5.0, 5.0, 5.0, 5.0, 5.0, 5.0, 5.0, 5.0, 5.0, 5.0, 5.0]],
  -- World 3
  [[9.5, 8.3, 16.0, 12.0, 12.2, 4.5, 12.4, 8.3, 12.5, 10.5, 9.0, 11.6, 15.8, 14.8, 14.8, 14.8, 10.5, 17.0, 17.0, 20.0],
   [23.0, 16.0, 16.5, 20.0, 28.0, 20.0, 15.5, 17.5, 21.0, 18.0, 24.0, 11.6, 40.0, 18.0, 27.0, 24.0, 11.5, 17.0, 17.0, 25.5],
   [5.0, 5.0, 5.0, 5.0, 5.0, 5.0, 5.0, 5.0, 5.0, 5.0, 5.0, 5.0]],
  -- World 4
  [[11.0, 23.0, 11.5, 11.5, 12.0, 8.0, 17.0, 16.0, 6.0, 15.0, 12.5, 10.8, 11.5, 17.5, 9.0, 12.0, 12.0, 24.5, 14.0, 22.0],
   [19.0, 16.5, 12.0, 17.5, 14.0, 19.0, 18.0, 19.0, 10.5, 17.0, 16.5, 18.5, 23.0, 20.0, 11.0, 11.5, 18.0, 29.0, 14.0, 31.0],
   [5.0, 5.0, 5.0, 5.0, 5.0, 5.0, 5.0, 5.0, 5.0, 5.0, 5.0, 5.0]],
  -- World 5
  [[22.0, 13.0, 18.0, 13.5, 12.5, 11.0, 23.0, 20.0, 19.5, 15.5, 18.5, 16.0, 20.0, 30.5, 13.5, 30.0, 23.0, 17.0, 29.0, 32.0],
   [30.0, 17.0, 35.0, 27.0, 18.0, 12.0, 15.0, 26.0, 40.0, 15.0, 25.0, 26.0, 25.0, 60.0, 15.0, 32.0, 27.0, 19.0, 41.0, 48.0],
   [5.0, 5.0, 5.0, 5.0, 5.0, 5.0, 5.0, 5.0, 5.0, 5.0, 5.0, 5.0]],
  -- World 6
  [[30.0, 44.0, 34.0, 33.0, 44.0],
   [40.0, 50.0, 70.0, 50.0, 60.0]],
  -- World 7
  [[11.0, 13.0, 23.0, 26.0, 30.0, 7.5, 10.5, 26.0, 21.0, 32.0, 18.0, 11.6, 22.0, 40.0, 24.0, 20.0, 20.0, 21.0, 17.0, 45.0],
   [60.0, 60.0, 60.0, 60.0, 60.0, 60.0, 60.0, 60.0, 60.0, 60.0, 60.0, 60.0, 60.0, 60.0, 60.0, 60.5, 60.5, 60.0, 60.0, 60.0]]]

def regionTypeIdx (region : String) : Option Nat :=
  if region = "light" then some 0
  else if region = "dark" then some 1
  else if region = "warp" then some 2
  else none

/-- `get_par_time(world, level_index, region)`. -/
def get_par_time (world : Int) (level_index : Int) (region : String) : Option ℚ :=
  let wi := world - 1
  if wi < 0 ∨ 7 ≤ wi then none
  else
    match PAR_TIMES.get? wi.toNat with
    | none => none
    | some wrows =>
      match regionTypeIdx region with
      | none => none
      | some ti =>
        if wrows.length ≤ ti then none
        else
          match wrows.get? ti with
          | none => none
          | some row =>
            if level_index < 0 ∨ (row.length : Int) ≤ level_index then none
            else row.get? level_index.toNat

/-! ## AP location id scheme (`smb_game_data.py`) -/

def level_location_id (world level_index : Int) : Int :=
  BASE_ID + (world - 1) * 20 + (level_index + 1)

def w6_level_location_id (level_index : Int) : Int := BASE_ID + 401 + level_index

def w6_dark_level_location_id (level_index : Int) : Int := BASE_ID + 406 + level_index

def dark_level_location_id (world level_index : Int) : Int :=
  BASE_ID + 300 + (world - 1) * 20 + (level_index + 1)

def boss_location_id (world : Int) : Int := BASE_ID + 100 + world

def dark_boss_location_id : Int := BASE_ID + 107

def aplus_light_location_id (world level_index : Int) : Int :=
  BASE_ID + 500 + (world - 1) * 20 + (level_index + 1)

def aplus_dark_location_id (world level_index : Int) : Int :=
  BASE_ID + 600 + (world - 1) * 20 + (level_index + 1)

def aplus_w6_light_location_id (level_index : Int) : Int := BASE_ID + 701 + level_index

def aplus_w6_dark_location_id (level_index : Int) : Int := BASE_ID + 706 + level_index

def aplus_w7_light_location_id (level_index : Int) : Int := BASE_ID + 711 + level_index

def aplus_w7_dark_location_id (level_index : Int) : Int := BASE_ID + 731 + level_index

def aplus_warp_location_id (world warp_slot_index : Int) : Int :=
  BASE_ID + 751 + (world - 1) * 12 + warp_slot_index

def w7_light_location_id (level_index : Int) : Int := BASE_ID + 811 + level_index

def w7_dark_location_id (level_index : Int) : Int := BASE_ID + 831 + level_index

/-- `get_completion_location_id(world, level_index, region)`. -/
def get_completion_location_id (world level_index : Int) (region : String) : Option Int :=
  if region = "light" then
    if 1 ≤ world ∧ world ≤ 5 ∧ 0 ≤ level_index ∧ level_index < 20 then
      some (level_location_id world level_index)
    else if world = 6 ∧ 0 ≤ level_index ∧ level_index < 5 then
      some (w6_level_location_id level_index)
    else if world = 7 ∧ 0 ≤ level_index ∧ level_index < 20 then
      some (w7_light_location_id level_index)
    else none
  else if region = "dark" then
    if 1 ≤ world ∧ world ≤ 5 ∧ 0 ≤ level_index ∧ level_index < 20 then
      some (dark_level_location_id world level_index)
    else if world = 6 ∧ 0 ≤ level_index ∧ level_index < 5 then
      some (w6_dark_level_location_id level_index)
    else if world = 7 ∧ 0 ≤ level_index ∧ level_index < 20 then
      some (w7_dark_location_id level_index)
    else none
  else none

/-- `get_aplus_location_id(world, level_index, region)`. -/
def get_aplus_location_id (world level_index : Int) (region : String) : Option Int :=
  if region = "light" then
    if 1 ≤ world ∧ world ≤ 5 ∧ 0 ≤ level_index ∧ level_index < 20 then
      some (aplus_light_location_id world level_index)
    else if world = 6 ∧ 0 ≤ level_index ∧ level_index < 5 then
      some (aplus_w6_light_location_id level_index)
    else if world = 7 ∧ 0 ≤ level_index ∧ level_index < 20 then
      some (aplus_w7_light_location_id level_index)
    else none
  else if region = "dark" then
    if 1 ≤ world ∧ world ≤ 5 ∧ 0 ≤ level_index ∧ level_index < 20 then
      some (aplus_dark_location_id world level_index)
    else if world = 6 ∧ 0 ≤ level_index ∧ level_index < 5 then
      some (aplus_w6_dark_location_id level_index)
    else if world = 7 ∧ 0 ≤ level_index ∧ level_index < 20 then
      some (aplus_w7_dark_location_id level_index)
    else none
  else if region = "warp" then
    if 1 ≤ world ∧ world ≤ 5 ∧ 0 ≤ level_index ∧ level_index < 12 then
      some (aplus_warp_location_id world level_index)
    else none
  else none

/-! ## Memory Access Façade (`GameInterface`, `smb_ap_client.py`)

The foreign process's memory is a record of partial read functions: a
`none` result models a raised `pymem` exception, which every helper
swallows via `try/except`.  Byte reads land in 0..255, uint reads in
0..2^32-1 when they succeed; those domain facts are hypotheses
(`ByteDomain`, etc.) where a theorem needs them.  Writes are modelled by
a success predicate `writeOk` plus point updates: a failed write leaves
memory unchanged (the Python `except: pass`). -/

structure Mem where
  byte : Int → Option Int
  uint : Int → Option Int
  int32 : Int → Option Int
  flt : Int → Option ℚ
  writeOk : Int → Bool

/-- Primitive `pymem.write_uchar`: point update on success, no-op on failure. -/
def Mem.setByte (m : Mem) (addr v : Int) : Mem :=
  if m.writeOk addr then
    { m with byte := fun x => if x = addr then some v else m.byte x }
  else m

/-- Primitive `pymem.write_float`. -/
def Mem.setFlt (m : Mem) (addr : Int) (v : ℚ) : Mem :=
  if m.writeOk addr then
    { m with flt := fun x => if x = addr then some v else m.flt x }
  else m

/-- Primitive `pymem.write_uint`. -/
def Mem.setUint (m : Mem) (addr v : Int) : Mem :=
  if m.writeOk addr then
    { m with uint := fun x => if x = addr then some v else m.uint x }
  else m

-- Memory addresses (v1.2.5 Steam), `ADDR` dict
def ADDR_playing : Int := 0x30a1c8
def ADDR_world : Int := 0x2f79ac
def ADDR_level_beaten : Int := 0x30a1e0
def ADDR_save_ptr : Int := 0x30a380
def ADDR_world_unlock : Int := 0x3954
def ADDR_level_trans : Int := 0x30ad00
def CHARACTER_BITMASK_OFFSET : Int := 0x3950

/-- `BOSS_COUNTER_OFFSETS` (from save_ptr). -/
def BOSS_COUNTER_OFFSETS (w : Int) : Option Int :=
  if w = 1 then some 0x38D8
  else if w = 2 then some 0x38E4
  else if w = 3 then some 0x38F0
  else if w = 4 then some 0x38FC
  else if w = 5 then some 0x3908
  else if w = 6 then some 0x3914
  else none

/-- `BOSS_UNLOCK_THRESHOLDS` (counter >= this opens the boss door). -/
def BOSS_UNLOCK_THRESHOLDS (w : Int) : Option Nat :=
  if w = 1 ∨ w = 2 ∨ w = 3 ∨ w = 4 ∨ w = 5 then some 17
  else if w = 6 then some 5
  else none

/-- `GameInterface.rb`: byte read at `base + a`, `-1` on failure. -/
def rb (m : Mem) (base a : Int) : Int :=
  match m.byte (base + a) with
  | some v => v
  | none => -1

/-- `GameInterface.rp`: pointer-chased byte read; `-1` if the pointer read
fails, the pointer is 0 (falsy), or the byte read fails. -/
def rp (m : Mem) (base b o : Int) : Int :=
  match m.uint (base + b) with
  | none => -1
  | some p => if p = 0 then -1 else
      match m.byte (p + o) with
      | some v => v
      | none => -1

/-- `GameInterface.rpi`: pointer-chased signed int read. -/
def rpi (m : Mem) (base b o : Int) : Int :=
  match m.uint (base + b) with
  | none => -1
  | some p => if p = 0 then -1 else
      match m.int32 (p + o) with
      | some v => v
      | none => -1

/-- `GameInterface.get_sp`: save pointer, `0` on failure. -/
def get_sp (m : Mem) (base : Int) : Int :=
  match m.uint (base + ADDR_save_ptr) with
  | some p => p
  | none => 0

/-- `GameInterface.read_comp`: completion byte of a slot; `-1` when the
address resolves to `None`, the save pointer is 0, or the read fails. -/
def read_comp (m : Mem) (sp world index : Int) (region : String) : Int :=
  match comp_addr world index region with
  | none => -1
  | some ca =>
    if sp = 0 then -1 else
      match m.byte (sp + ca) with
      | some v => v
      | none => -1

/-- `GameInterface.write_comp`: best-effort completion-byte write; no-op
when the address resolves to `None`, the save pointer is 0, or the
underlying write fails. -/
def write_comp (m : Mem) (sp world index : Int) (region : String) (value : Int) : Mem :=
  match comp_addr world index region with
  | none => m
  | some ca => if sp = 0 then m else m.setByte (sp + ca) value

/-- `GameInterface.read_time`: IL best time; `-1.0` on any failure. -/
def read_time (m : Mem) (sp world level_index : Int) (region : String) : ℚ :=
  match time_addr world level_index region with
  | none => -1
  | some ta =>
    if sp = 0 then -1 else
      match m.flt (sp + ta) with
      | some v => v
      | none => -1

/-- `GameInterface.write_time`: best-effort IL time write. -/
def write_time (m : Mem) (sp world level_index : Int) (region : String) (value : ℚ) : Mem :=
  match time_addr world level_index region with
  | none => m
  | some ta => if sp = 0 then m else m.setFlt (sp + ta) value

/-- `GameInterface.get_world_unlock`: returns `0` on failure (note: `0` is
also a legitimate byte value for this field). -/
def get_world_unlock (m : Mem) (sp : Int) : Int :=
  match m.byte (sp + ADDR_world_unlock) with
  | some v => v
  | none => 0

/-- `GameInterface.get_char_bitmask`: returns `0` on failure. -/
def get_char_bitmask (m : Mem) (sp : Int) : Int :=
  match m.uint (sp + CHARACTER_BITMASK_OFFSET) with
  | some v => v
  | none => 0

/-- `GameInterface.set_world_unlock` (best-effort). -/
def set_world_unlock (m : Mem) (sp bitmask : Int) : Mem :=
  m.setByte (sp + ADDR_world_unlock) bitmask

/-- `GameInterface.set_char_bitmask` (best-effort). -/
def set_char_bitmask (m : Mem) (sp bitmask : Int) : Mem :=
  m.setUint (sp + CHARACTER_BITMASK_OFFSET) bitmask

/-- `GameInterface.read_boss_counter`: `-1` for unknown world, null save
pointer, or failed read. -/
def read_boss_counter (m : Mem) (sp world : Int) : Int :=
  match BOSS_COUNTER_OFFSETS world with
  | none => -1
  | some off =>
    if sp = 0 then -1 else
      match m.byte (sp + off) with
      | some v => v
      | none => -1

/-- `GameInterface.write_boss_counter`: best-effort write of
`min(value, 255)`. -/
def write_boss_counter (m : Mem) (sp world value : Int) : Mem :=
  match BOSS_COUNTER_OFFSETS world with
  | none => m
  | some off => if sp = 0 then m else m.setByte (sp + off) (min value 255)

/-- Domain fact for byte reads: `pymem.read_uchar` yields 0..255. -/
def ByteDomain (m : Mem) : Prop :=
  ∀ a v, m.byte a = some v → 0 ≤ v ∧ v ≤ 255

/-- Domain fact for the save slots' time field: the game stores only
non-negative times. -/
def TimeDomain (m : Mem) : Prop :=
  ∀ a v, m.flt a = some v → 0 ≤ v

/-! ## Theorems: address resolution (claims C8, C10) -/

/-- **C8**: for every structurally invalid (world, index, region)
combination — a world outside 1-7, an unknown region string, or the warp
region of worlds 6 and 7 — `slot_addr`, `comp_addr` and `time_addr` all
return `none` (not an exception, not offset 0); `read_comp`/`read_time`
turn a `none` address into the failure sentinel and
`write_comp`/`write_time` into a no-op; and for structurally valid
combinations the resolvers return world base + region offset + index·12
(+4 for the completion byte, +0 for the time). -/
theorem resolvers_invalid_none_valid_offsets
    (world index : Int) (region : String) (m : Mem) (sp value : Int) (q : ℚ) :
    ((world < 1 ∨ 7 < world) →
      slot_addr world index region = none ∧
      comp_addr world index region = none ∧
      time_addr world index region = none) ∧
    ((region ≠ "light" ∧ region ≠ "dark" ∧ region ≠ "warp") →
      slot_addr world index region = none ∧
      comp_addr world index region = none ∧
      time_addr world index region = none) ∧
    ((world = 6 ∨ world = 7) → region = "warp" →
      slot_addr world index region = none ∧
      comp_addr world index region = none ∧
      time_addr world index region = none) ∧
    (comp_addr world index region = none →
      read_comp m sp world index region = -1 ∧
      write_comp m sp world index region value = m) ∧
    (time_addr world index region = none →
      read_time m sp world index region = -1 ∧
      write_time m sp world index region q = m) ∧
    (∀ wb, WORLD_BASES world = some wb →
      (region = "light" →
        slot_addr world index region = some (wb + LIGHT_OFFSET + index * SLOT_SIZE) ∧
        comp_addr world index region = some (wb + LIGHT_OFFSET + index * SLOT_SIZE + 4) ∧
        time_addr world index region = some (wb + LIGHT_OFFSET + index * SLOT_SIZE + 0)) ∧
      (region = "dark" → world ≠ 6 →
        slot_addr world index region = some (wb + DARK_OFFSET + index * SLOT_SIZE) ∧
        comp_addr world index region = some (wb + DARK_OFFSET + index * SLOT_SIZE + 4) ∧
        time_addr world index region = some (wb + DARK_OFFSET + index * SLOT_SIZE + 0)) ∧
      (region = "warp" → 1 ≤ world → world ≤ 5 →
        slot_addr world index region = some (wb + WARP_OFFSET + index * SLOT_SIZE) ∧
        comp_addr world index region = some (wb + WARP_OFFSET + index * SLOT_SIZE + 4) ∧
        time_addr world index region = some (wb + WARP_OFFSET + index * SLOT_SIZE + 0))) ∧
    (world = 6 → region = "dark" →
      slot_addr world index region = some (0x0C90 + W6_DARK_OFFSET + index * SLOT_SIZE) ∧
      comp_addr world index region = some (0x0C90 + W6_DARK_OFFSET + index * SLOT_SIZE + 4) ∧
      time_addr world index region = some (0x0C90 + W6_DARK_OFFSET + index * SLOT_SIZE + 0)) := by
  constructor
  · intro hw
    have hbase : WORLD_BASES world = none := by
      unfold WORLD_BASES
      repeat rw [if_neg (by omega)]
    have h6 : world ≠ 6 := by omega
    have h7 : world ≠ 7 := by omega
    simp [slot_addr, comp_addr, time_addr, gd_slot_addr, gd_comp_addr,
      gd_time_addr, hbase, h6, h7]
  constructor
  · rintro ⟨h1, h2, h3⟩
    cases hW : WORLD_BASES world <;>
      simp [slot_addr, comp_addr, time_addr, gd_slot_addr, gd_comp_addr,
        gd_time_addr, h1, h2, h3, hW]
  constructor
  · rintro hw rfl
    rcases hw with rfl | rfl <;>
      simp [slot_addr, comp_addr, time_addr]
  constructor
  · intro hnone
    rw [read_comp, write_comp, hnone]
    exact ⟨rfl, rfl⟩
  constructor
  · intro hnone
    rw [read_time, write_time, hnone]
    exact ⟨rfl, rfl⟩
  constructor
  · intro wb hwb
    refine ⟨?_, ?_, ?_⟩
    · rintro rfl
      simp [slot_addr, comp_addr, time_addr, gd_slot_addr, gd_comp_addr,
        gd_time_addr, hwb, COMP_BYTE, TIME_BYTE]
    · rintro rfl h6
      simp [slot_addr, comp_addr, time_addr, gd_slot_addr, gd_comp_addr,
        gd_time_addr, hwb, h6, COMP_BYTE, TIME_BYTE]
    · rintro rfl h1 h5
      have h6 : world ≠ 6 := by omega
      have h7 : world ≠ 7 := by omega
      simp [slot_addr, comp_addr, time_addr, gd_slot_addr, gd_comp_addr,
        gd_time_addr, hwb, h6, h7, COMP_BYTE, TIME_BYTE]
  · rintro rfl rfl
    simp [slot_addr, comp_addr, time_addr, COMP_BYTE, TIME_BYTE]

/-- **C8 witness**: the theorem applied at concrete inputs, discharging
each hypothesis: world 6's warp region resolves to `none`, a `none`
address makes `read_comp` return `-1`, and `(2, 3, "light")` resolves to
`0x2D0 + 3·12 (+4 for the completion byte)`. -/
theorem resolvers_invalid_none_valid_offsets_witness :
    comp_addr 6 0 "warp" = none ∧
    read_comp ⟨fun _ => some 0, fun _ => some 0, fun _ => some 0,
      fun _ => some 0, fun _ => true⟩ 1 6 0 "warp" = -1 ∧
    comp_addr 2 3 "light" = some (0x02D0 + 0 + 3 * 12 + 4) := by
  have m : Mem := ⟨fun _ => some 0, fun _ => some 0, fun _ => some 0,
      fun _ => some 0, fun _ => true⟩
  refine ⟨?_, ?_, ?_⟩
  · exact ((resolvers_invalid_none_valid_offsets 6 0 "warp" m 1 0 0).2.2.1
      (Or.inl rfl) rfl).2.1
  · exact ((resolvers_invalid_none_valid_offsets 6 0 "warp"
      ⟨fun _ => some 0, fun _ => some 0, fun _ => some 0, fun _ => some 0,
        fun _ => true⟩ 1 0 0).2.2.2.1
      (((resolvers_invalid_none_valid_offsets 6 0 "warp" m 1 0 0).2.2.1
        (Or.inl rfl) rfl).2.1)).1
  · exact (((resolvers_invalid_none_valid_offsets 2 3 "light" m 1 0 0).2.2.2.2.2.1
      0x02D0 rfl).1 rfl).2.1

/-- Boolean safety check for one bandage grant target, tying together the
facts claim C10 asserts about it: it is a light or dark level of worlds
1-5, within index range, without a native bandage there, and its
completion-byte address is not among the keys of
`CORRECTED_BANDAGE_BY_ADDR` (so the diff/scan detection paths can never
credit it). -/
def grantTargetSafe (t : Nat × Nat × String) : Bool :=
  (1 ≤ t.1 && t.1 ≤ 5) &&
  (t.2.2 == "light" || t.2.2 == "dark") &&
  (t.2.1 < 20) &&
  (if t.2.2 == "light" then !(LIGHT_BANDAGE_LEVELS t.1).contains (t.2.1 + 1)
   else !(DARK_BANDAGE_LEVELS t.1).contains (t.2.1 + 1)) &&
  (match comp_addr (t.1 : Int) (t.2.1 : Int) t.2.2 with
   | some ca => !(CORRECTED_BANDAGE_ADDRS.contains ca)
   | none => false)

set_option maxRecDepth 4000 in
/-- **C10**: every bandage grant target is a light/dark W1-W5 level
without a native bandage, and its completion-byte address is never a key
of the corrected bandage-by-address lookup, so a granted bandage bit can
never be re-detected as a creditable bandage location. -/
theorem bandage_grant_targets_safe :
    BANDAGE_GRANT_TARGETS.all grantTargetSafe = true := by decide

/-! ## Theorems: Memory Access Façade (claim C9) -/

/-- **C9 counterexample**: the claim asserts every read helper's failure
sentinel is distinct from every valid in-domain value, with a negative
number for unsigned byte fields.  `get_world_unlock` reads the unsigned
world-unlock byte but returns `0` on a failed read — indistinguishable
from successfully reading a stored `0`: a memory whose reads all raise
and a memory genuinely holding byte `0` produce the same result. -/
theorem get_world_unlock_sentinel_ambiguous :
    get_world_unlock ⟨fun _ => none, fun _ => none, fun _ => none,
      fun _ => none, fun _ => false⟩ 100 = 0 ∧
    get_world_unlock ⟨fun _ => some 0, fun _ => some 0, fun _ => some 0,
      fun _ => some 0, fun _ => true⟩ 100 = 0 ∧
    (⟨fun _ => some 0, fun _ => some 0, fun _ => some 0, fun _ => some 0,
      fun _ => true⟩ : Mem).byte (100 + ADDR_world_unlock) = some 0 :=
  ⟨rfl, rfl, rfl⟩

/-- **C9 (amended)**: the byte/count/time read helpers (`rb`, `rp`,
`read_comp`, `read_boss_counter`, `read_time`) return either the value
read or the negative sentinel `-1`, distinct from their non-negative
domains, and any failure yields the sentinel; `rpi` returns `-1` or the
signed value read; `get_world_unlock`/`get_char_bitmask` fall back to `0`
(not a distinct sentinel); every write helper is total and either leaves
memory unchanged or performs exactly the intended single-point update,
never touching any other address or field. -/
theorem facade_reads_sentinel_writes_besteffort
    (m : Mem) (base a b o sp world index value : Int) (region : String) (q : ℚ)
    (hB : ByteDomain m) (hT : TimeDomain m) :
    (rb m base a = -1 ∨ (0 ≤ rb m base a ∧ rb m base a ≤ 255)) ∧
    (m.byte (base + a) = none → rb m base a = -1) ∧
    (rp m base b o = -1 ∨ (0 ≤ rp m base b o ∧ rp m base b o ≤ 255)) ∧
    (rpi m base b o = -1 ∨
      ∃ p v, m.uint (base + b) = some p ∧ p ≠ 0 ∧ m.int32 (p + o) = some v ∧
        rpi m base b o = v) ∧
    (read_comp m sp world index region = -1 ∨
      (0 ≤ read_comp m sp world index region ∧
       read_comp m sp world index region ≤ 255)) ∧
    (read_boss_counter m sp world = -1 ∨
      (0 ≤ read_boss_counter m sp world ∧ read_boss_counter m sp world ≤ 255)) ∧
    (read_time m sp world index region = -1 ∨
      0 ≤ read_time m sp world index region) ∧
    (m.uint (sp + CHARACTER_BITMASK_OFFSET) = none → get_char_bitmask m sp = 0) ∧
    (m.byte (sp + ADDR_world_unlock) = none → get_world_unlock m sp = 0) ∧
    (∀ x, (∀ ca, comp_addr world index region = some ca → x ≠ sp + ca) →
      (write_comp m sp world index region value).byte x = m.byte x) ∧
    ((write_comp m sp world index region value).flt = m.flt ∧
     (write_comp m sp world index region value).uint = m.uint ∧
     (write_comp m sp world index region value).int32 = m.int32) ∧
    (∀ x, (∀ ta, time_addr world index region = some ta → x ≠ sp + ta) →
      (write_time m sp world index region q).flt x = m.flt x) ∧
    ((write_time m sp world index region q).byte = m.byte ∧
     (write_time m sp world index region q).uint = m.uint) ∧
    (∀ x, (∀ off, BOSS_COUNTER_OFFSETS world = some off → x ≠ sp + off) →
      (write_boss_counter m sp world value).byte x = m.byte x) ∧
    (m.uint (base + ADDR_save_ptr) = none → get_sp m base = 0) := by
  refine ⟨?_, ?_, ?_, ?_, ?_, ?_, ?_, ?_, ?_, ?_, ?_, ?_, ?_, ?_, ?_⟩
  · unfold rb
    cases h : m.byte (base + a) with
    | none => exact Or.inl rfl
    | some v => exact Or.inr (hB _ _ h)
  · intro h
    unfold rb
    rw [h]
  · unfold rp
    cases h : m.uint (base + b) with
    | none => exact Or.inl rfl
    | some p =>
      dsimp only
      by_cases hp : p = 0
      · simp [hp]
      · rw [if_neg hp]
        cases h2 : m.byte (p + o) with
        | none => exact Or.inl rfl
        | some v => exact Or.inr (hB _ _ h2)
  · unfold rpi
    cases h : m.uint (base + b) with
    | none => exact Or.inl rfl
    | some p =>
      dsimp only
      by_cases hp : p = 0
      · simp [hp]
      · rw [if_neg hp]
        cases h2 : m.int32 (p + o) with
        | none => exact Or.inl rfl
        | some v => exact Or.inr ⟨p, v, rfl, hp, h2, rfl⟩
  · unfold read_comp
    cases comp_addr world index region with
    | none => exact Or.inl rfl
    | some ca =>
      dsimp only
      by_cases hsp : sp = 0
      · simp [hsp]
      · rw [if_neg hsp]
        cases h : m.byte (sp + ca) with
        | none => exact Or.inl rfl
        | some v => exact Or.inr (hB _ _ h)
  · unfold read_boss_counter
    cases BOSS_COUNTER_OFFSETS world with
    | none => exact Or.inl rfl
    | some off =>
      dsimp only
      by_cases hsp : sp = 0
      · simp [hsp]
      · rw [if_neg hsp]
        cases h : m.byte (sp + off) with
        | none => exact Or.inl rfl
        | some v => exact Or.inr (hB _ _ h)
  · unfold read_time
    cases time_addr world index region with
    | none => exact Or.inl rfl
    | some ta =>
      dsimp only
      by_cases hsp : sp = 0
      · simp [hsp]
      · rw [if_neg hsp]
        cases h : m.flt (sp + ta) with
        | none => exact Or.inl rfl
        | some v => exact Or.inr (hT _ _ h)
  · intro h
    unfold get_char_bitmask
    rw [h]
  · intro h
    unfold get_world_unlock
    rw [h]
  · intro x hx
    unfold write_comp
    cases hca : comp_addr world index region with
    | none => rfl
    | some ca =>
      dsimp only
      by_cases hsp : sp = 0
      · rw [if_pos hsp]
      · rw [if_neg hsp]
        unfold Mem.setByte
        by_cases hok : m.writeOk (sp + ca) = true
        · rw [if_pos hok]
          simp only
          rw [if_neg (hx ca hca)]
        · rw [if_neg hok]
  · unfold write_comp
    cases comp_addr world index region with
    | none => exact ⟨rfl, rfl, rfl⟩
    | some ca =>
      dsimp only
      by_cases hsp : sp = 0
      · rw [if_pos hsp]
        exact ⟨rfl, rfl, rfl⟩
      · rw [if_neg hsp]
        unfold Mem.setByte
        by_cases hok : m.writeOk (sp + ca) = true
        · rw [if_pos hok]
          exact ⟨rfl, rfl, rfl⟩
        · rw [if_neg hok]
          exact ⟨rfl, rfl, rfl⟩
  · intro x hx
    unfold write_time
    cases hta : time_addr world index region with
    | none => rfl
    | some ta =>
      dsimp only
      by_cases hsp : sp = 0
      · rw [if_pos hsp]
      · rw [if_neg hsp]
        unfold Mem.setFlt
        by_cases hok : m.writeOk (sp + ta) = true
        · rw [if_pos hok]
          simp only
          rw [if_neg (hx ta hta)]
        · rw [if_neg hok]
  · unfold write_time
    cases time_addr world index region with
    | none => exact ⟨rfl, rfl⟩
    | some ta =>
      dsimp only
      by_cases hsp : sp = 0
      · rw [if_pos hsp]
        exact ⟨rfl, rfl⟩
      · rw [if_neg hsp]
        unfold Mem.setFlt
        by_cases hok : m.writeOk (sp + ta) = true
        · rw [if_pos hok]
          exact ⟨rfl, rfl⟩
        · rw [if_neg hok]
          exact ⟨rfl, rfl⟩
  · intro x hx
    unfold write_boss_counter
    cases hoff : BOSS_COUNTER_OFFSETS world with
    | none => rfl
    | some off =>
      dsimp only
      by_cases hsp : sp = 0
      · rw [if_pos hsp]
      · rw [if_neg hsp]
        unfold Mem.setByte
        by_cases hok : m.writeOk (sp + off) = true
        · rw [if_pos hok]
          simp only
          rw [if_neg (hx off hoff)]
        · rw [if_neg hok]
  · intro h
    unfold get_sp
    rw [h]

/-- **C9 witness**: the amended theorem applied at a concrete memory
(all bytes 0, all times 0), with both domain hypotheses discharged. -/
theorem facade_reads_sentinel_writes_besteffort_witness :
    (rb ⟨fun _ => some 0, fun _ => some 0, fun _ => some 0, fun _ => some 0,
      fun _ => true⟩ 0 5 = -1 ∨
     (0 ≤ rb ⟨fun _ => some 0, fun _ => some 0, fun _ => some 0, fun _ => some 0,
      fun _ => true⟩ 0 5 ∧
      rb ⟨fun _ => some 0, fun _ => some 0, fun _ => some 0, fun _ => some 0,
      fun _ => true⟩ 0 5 ≤ 255)) := by
  have hB : ByteDomain ⟨fun _ => some 0, fun _ => some 0, fun _ => some 0,
      fun _ => some 0, fun _ => true⟩ := by
    intro a v h
    cases h
    exact ⟨le_refl 0, by norm_num⟩
  have hT : TimeDomain ⟨fun _ => some 0, fun _ => some 0, fun _ => some 0,
      fun _ => some 0, fun _ => true⟩ := by
    intro a v h
    cases h
    exact le_refl 0
  exact (facade_reads_sentinel_writes_besteffort _ 0 5 0 0 1 1 0 0 "light" 0 hB hT).1

/-! ## Theorems: bandage corrective write-back (claim C7) -/

/-- The level-exit (and mid-play) bandage credit step of `game_monitor`:
if the entry snapshot `ev` has bit 0 clear and the freshly read byte `cv`
has it set, the client credits the bandage and immediately writes back
`cv & MASK_CLEAR_BANDAGE` to the same completion byte (both guarded by
`ev >= 0 and cv >= 0 and ev != cv` upstream; byte values are the
`toNat` of the non-negative reads). -/
def bandage_credit_writeback (m : Mem) (sp world index : Int) (region : String)
    (ev cv : Int) : Mem :=
  if (ev.toNat &&& FLAG_BANDAGE) = 0 ∧ (cv.toNat &&& FLAG_BANDAGE) ≠ 0 then
    write_comp m sp world index region ((cv.toNat &&& MASK_CLEAR_BANDAGE : Nat) : Int)
  else m

/-- **C7**: when a newly set bandage bit is credited, the corrective
write stores exactly `cv & 0xFE` at the level's completion byte: bit 0
reads back cleared while every other bit of the byte — in particular the
complete bit 0x02 and the GotWarp bit 0x08 — keeps its current value,
and no other address or memory field is modified. -/
theorem bandage_credit_clears_only_bandage_bit
    (m : Mem) (sp world index : Int) (region : String) (ev cv ca : Int)
    (hca : comp_addr world index region = some ca) (hsp : sp ≠ 0)
    (hok : m.writeOk (sp + ca) = true)
    (hev : ev.toNat &&& FLAG_BANDAGE = 0)
    (hcv : cv.toNat &&& FLAG_BANDAGE ≠ 0)
    (hcv255 : cv.toNat ≤ 255) :
    (bandage_credit_writeback m sp world index region ev cv).byte (sp + ca)
      = some ((cv.toNat &&& MASK_CLEAR_BANDAGE : Nat) : Int) ∧
    (cv.toNat &&& MASK_CLEAR_BANDAGE).testBit 0 = false ∧
    (∀ k, 1 ≤ k → (cv.toNat &&& MASK_CLEAR_BANDAGE).testBit k = cv.toNat.testBit k) ∧
    ((cv.toNat &&& MASK_CLEAR_BANDAGE).testBit 1 = cv.toNat.testBit 1 ∧
     (cv.toNat &&& MASK_CLEAR_BANDAGE).testBit 3 = cv.toNat.testBit 3) ∧
    (∀ x, x ≠ sp + ca →
      (bandage_credit_writeback m sp world index region ev cv).byte x = m.byte x) ∧
    (bandage_credit_writeback m sp world index region ev cv).flt = m.flt ∧
    (bandage_credit_writeback m sp world index region ev cv).uint = m.uint ∧
    (bandage_credit_writeback m sp world index region ev cv).int32 = m.int32 := by
  have hgoal : bandage_credit_writeback m sp world index region ev cv
      = write_comp m sp world index region ((cv.toNat &&& MASK_CLEAR_BANDAGE : Nat) : Int) := by
    unfold bandage_credit_writeback
    rw [if_pos ⟨hev, hcv⟩]
  have hw : write_comp m sp world index region ((cv.toNat &&& MASK_CLEAR_BANDAGE : Nat) : Int)
      = m.setByte (sp + ca) ((cv.toNat &&& MASK_CLEAR_BANDAGE : Nat) : Int) := by
    unfold write_comp
    rw [hca]
    simp only [if_neg hsp]
  have hbitk : ∀ k, 1 ≤ k →
      (cv.toNat &&& MASK_CLEAR_BANDAGE).testBit k = cv.toNat.testBit k := by
    intro k hk
    rw [MASK_CLEAR_BANDAGE, Nat.testBit_and]
    by_cases h8 : k ≤ 7
    · have : (0xFE : Nat).testBit k = true := by
        interval_cases k <;> decide
      rw [this, Bool.and_true]
    · have hcvk : cv.toNat.testBit k = false := by
        apply Nat.testBit_lt_two_pow
        calc cv.toNat ≤ 255 := hcv255
        _ < 2 ^ 8 := by norm_num
        _ ≤ 2 ^ k := Nat.pow_le_pow_right (by norm_num) (by omega)
      have hmk : (0xFE : Nat).testBit k = false := by
        apply Nat.testBit_lt_two_pow
        calc (0xFE : Nat) < 2 ^ 8 := by norm_num
        _ ≤ 2 ^ k := Nat.pow_le_pow_right (by norm_num) (by omega)
      rw [hcvk, hmk, Bool.and_false]
  refine ⟨?_, ?_, hbitk, ⟨hbitk 1 (by norm_num), hbitk 3 (by norm_num)⟩, ?_, ?_, ?_, ?_⟩
  · rw [hgoal, hw]
    unfold Mem.setByte
    rw [if_pos hok]
    simp
  · rw [MASK_CLEAR_BANDAGE, Nat.testBit_and]
    have h0 : Nat.testBit 0xFE 0 = false := by decide
    rw [h0, Bool.and_false]
  · intro x hx
    rw [hgoal, hw]
    unfold Mem.setByte
    rw [if_pos hok]
    simp only
    rw [if_neg hx]
  · rw [hgoal, hw]
    unfold Mem.setByte
    rw [if_pos hok]
  · rw [hgoal, hw]
    unfold Mem.setByte
    rw [if_pos hok]
  · rw [hgoal, hw]
    unfold Mem.setByte
    rw [if_pos hok]

/-- **C7 witness**: the theorem applied at the claim's scenario — the
bandage bit newly set on `(world=2, index=4, region="dark")` (entry byte
2, current byte 3 = complete + bandage): the written byte is 2, with
bit 0 cleared and the complete bit intact. -/
theorem bandage_credit_clears_only_bandage_bit_witness :
    (bandage_credit_writeback ⟨fun _ => some 3, fun _ => some 0, fun _ => some 0,
      fun _ => some 0, fun _ => true⟩ 1000 2 4 "dark" 2 3).byte
        (1000 + (0x02D0 + 0x0F0 + 4 * 12 + 4))
      = some ((3 &&& MASK_CLEAR_BANDAGE : Nat) : Int) ∧
    ((3 : Nat) &&& MASK_CLEAR_BANDAGE).testBit 0 = false ∧
    ((3 : Nat) &&& MASK_CLEAR_BANDAGE).testBit 1 = (3 : Nat).testBit 1 := by
  have h := bandage_credit_clears_only_bandage_bit
    ⟨fun _ => some 3, fun _ => some 0, fun _ => some 0, fun _ => some 0,
      fun _ => true⟩ 1000 2 4 "dark" 2 3 (0x02D0 + 0x0F0 + 4 * 12 + 4)
    (by decide) (by norm_num) rfl (by decide) (by decide) (by decide)
  exact ⟨h.1, h.2.1, h.2.2.2.1.1⟩

/-! ## Notification/outbound queue (claim C1) -/

structure NetState where
  connected : Bool
  locations_checked : Finset Int
  outbox : List (List Int)
  deriving DecidableEq

/-- `APClient.send_location_checks`: drop ids already in
`locations_checked`, add the survivors to the set (the Python updates the
set *before* awaiting the send), then emit one `LocationChecks` message
carrying exactly the survivors.  Disconnected clients and calls whose
list is empty (before or after filtering) send nothing. -/
def send_location_checks (st : NetState) (locations : List Int) : NetState :=
  if ¬ st.connected ∨ locations = [] then st
  else
    let new_locs := locations.filter fun l => decide (l ∉ st.locations_checked)
    if new_locs = [] then st
    else
      { st with
        locations_checked := st.locations_checked ∪ new_locs.toFinset,
        outbox := st.outbox ++ [new_locs] }

/-- A session's outbound behaviour: fold `send_location_checks` over the
sequence of batches the detection paths hand it. -/
def runSends (st : NetState) (calls : List (List Int)) : NetState :=
  calls.foldl send_location_checks st

/-- Session invariant: the connect-time seed stays in the checked set,
the concatenated outbound stream never repeats an id, and everything
ever sent is in the checked set and outside the seed. -/
def SendInv (init : Finset Int) (st : NetState) : Prop :=
  init ⊆ st.locations_checked ∧
  st.outbox.flatten.Nodup ∧
  ∀ l ∈ st.outbox.flatten, l ∈ st.locations_checked ∧ l ∉ init

theorem sendInv_step (init : Finset Int) (st : NetState) (c : List Int)
    (hc : c.Nodup) (h : SendInv init st) :
    SendInv init (send_location_checks st c) := by
  obtain ⟨hinit, hnd, hmem⟩ := h
  by_cases h1 : ¬ st.connected = true ∨ c = []
  · have heq : send_location_checks st c = st := by
      unfold send_location_checks
      rw [if_pos h1]
    rw [heq]
    exact ⟨hinit, hnd, hmem⟩
  · by_cases h2 : c.filter (fun l => decide (l ∉ st.locations_checked)) = []
    · have heq : send_location_checks st c = st := by
        unfold send_location_checks
        rw [if_neg h1]
        simp only [h2, if_pos]
      rw [heq]
      exact ⟨hinit, hnd, hmem⟩
    · set nl := c.filter (fun l => decide (l ∉ st.locations_checked)) with hnl
      have heq : send_location_checks st c =
          { st with locations_checked := st.locations_checked ∪ nl.toFinset,
                    outbox := st.outbox ++ [nl] } := by
        unfold send_location_checks
        rw [if_neg h1, if_neg h2]
      rw [heq]
      have hnew_not_checked : ∀ x ∈ nl, x ∉ st.locations_checked := by
        intro x hx
        have := (List.mem_filter.mp hx).2
        simpa using this
      refine ⟨fun x hx => Finset.mem_union_left _ (hinit hx), ?_, ?_⟩
      · show (st.outbox ++ [nl]).flatten.Nodup
        simp only [List.flatten_append, List.flatten_cons, List.flatten_nil,
          List.append_nil]
        rw [List.nodup_append]
        refine ⟨hnd, hc.filter _, ?_⟩
        intro x hx hx'
        exact hnew_not_checked x hx' (hmem x hx).1
      · intro l hl
        simp only [List.flatten_append, List.flatten_cons, List.flatten_nil,
          List.append_nil, List.mem_append] at hl
        rcases hl with hl | hl
        · exact ⟨Finset.mem_union_left _ (hmem l hl).1, (hmem l hl).2⟩
        · exact ⟨Finset.mem_union_right _ (List.mem_toFinset.mpr hl),
            fun hbad => hnew_not_checked l hl (hinit hbad)⟩

theorem sendInv_runSends (init : Finset Int) (st : NetState)
    (calls : List (List Int)) (hnd : ∀ c ∈ calls, c.Nodup)
    (h : SendInv init st) : SendInv init (runSends st calls) := by
  induction calls generalizing st with
  | nil => exact h
  | cons c rest ih =>
    exact ih (send_location_checks st c)
      (fun d hd => hnd d (List.mem_cons_of_mem _ hd))
      (sendInv_step init st c (hnd c (List.mem_cons_self _ _)) h)

/-- **C1**: starting from the server-seeded checked set, for any sequence
of (duplicate-free) batches handed over by the detection paths, the
concatenation of all outbound `LocationChecks` messages contains every
location id at most once, never contains an id that was already checked
at connect, and every id it does contain has been added to
`locations_checked` — so nothing can ever be re-sent. -/
theorem location_checks_sent_at_most_once
    (init : Finset Int) (calls : List (List Int))
    (hnd : ∀ c ∈ calls, c.Nodup) :
    (runSends ⟨true, init, []⟩ calls).outbox.flatten.Nodup ∧
    (∀ l ∈ init, l ∉ (runSends ⟨true, init, []⟩ calls).outbox.flatten) ∧
    (∀ l ∈ (runSends ⟨true, init, []⟩ calls).outbox.flatten,
      l ∈ (runSends ⟨true, init, []⟩ calls).locations_checked) := by
  have h0 : SendInv init ⟨true, init, []⟩ := by
    refine ⟨fun x hx => hx, by simp, by simp⟩
  have h := sendInv_runSends init _ calls hnd h0
  exact ⟨h.2.1, fun l hl hmem => (h.2.2 l hmem).2 hl, fun l hl => (h.2.2 l hl).1⟩

/-- **C1 witness**: the theorem at a concrete session — seed {5}, two
overlapping batches [5,6] and [6,7]: id 6 goes out once, id 5 never. -/
theorem location_checks_sent_at_most_once_witness :
    (runSends ⟨true, {5}, []⟩ [[5, 6], [6, 7]]).outbox.flatten.Nodup ∧
    (∀ l ∈ ({5} : Finset Int),
      l ∉ (runSends ⟨true, {5}, []⟩ [[5, 6], [6, 7]]).outbox.flatten) ∧
    (∀ l ∈ (runSends ⟨true, {5}, []⟩ [[5, 6], [6, 7]]).outbox.flatten,
      l ∈ (runSends ⟨true, {5}, []⟩ [[5, 6], [6, 7]]).locations_checked) :=
  location_checks_sent_at_most_once {5} [[5, 6], [6, 7]] (by decide)

/-! ## Boss token system (claim C2)

`boss_token_counts`, `boss_unlocked` and the per-world on-disk boss
counter, with the three operations that touch them: receiving a boss
token (which increments the count and runs `_update_boss_tokens`), an
enforcement pass (`_enforce_boss_counters`), and an external write by the
game (the counter reset the enforcement must survive).  The on-disk
counter is `Option Nat` per world: `none` models an unreadable byte
(`read_boss_counter` returning `-1`). -/

structure BossState where
  boss_token_counts : Int → Nat
  boss_unlocked : Finset Int
  counter : Int → Option Nat

/-- One iteration of `_update_boss_tokens`' loop body for world `w`:
skip worlds with `needed <= 0` (costs are the non-negative
`boss_tokens_wN` slot-data values) or already unlocked; otherwise, if the
world's token count has reached its cost, add it to `boss_unlocked` and
write the native threshold to its on-disk counter (`write_boss_counter`
caps at 255).  The `none` threshold branch is unreachable for the worlds
1-6 the loop ranges over (Python would raise `KeyError`). -/
def updateBossWorld (costs : Int → Nat) (s : BossState) (w : Int) : BossState :=
  if costs w = 0 ∨ w ∈ s.boss_unlocked then s
  else if costs w ≤ s.boss_token_counts w then
    match BOSS_UNLOCK_THRESHOLDS w with
    | some t =>
      { s with boss_unlocked := insert w s.boss_unlocked,
               counter := fun w2 => if w2 = w then some (min t 255) else s.counter w2 }
    | none => s
  else s

/-- `_update_boss_tokens`: the cost dict is `{w: ... for w in range(1, 7)}`
so the loop visits worlds 1..6 in order. -/
def update_boss_tokens (costs : Int → Nat) (s : BossState) : BossState :=
  [1, 2, 3, 4, 5, 6].foldl (updateBossWorld costs) s

/-- `_enforce_boss_counters` in token mode (the cost dict always has keys
1..6, hence is truthy, so the suppression loop always runs over 1..6).
Each world's counter entry is read and conditionally rewritten
independently of every other world, so the Python set/dict iteration
order is immaterial and the pass is modelled pointwise: unlocked worlds
whose successfully read counter sits below the native threshold are
raised back to it; cost-dict worlds not unlocked have a positive counter
suppressed to 0.  A failed read (`-1`, here `none`) triggers no write in
either branch. -/
def enforce_boss_counters (s : BossState) : BossState :=
  { s with counter := fun w =>
      if w ∈ s.boss_unlocked then
        match BOSS_UNLOCK_THRESHOLDS w with
        | some t =>
          match s.counter w with
          | some c => if c < t then some (min t 255) else some c
          | none => none
        | none => s.counter w
      else if 1 ≤ w ∧ w ≤ 6 then
        match s.counter w with
        | some c => if 0 < c then some 0 else some c
        | none => none
      else s.counter w }

/-- Session events touching the boss-token state: a received token for
world `w` (`game_monitor` increments the count, then — with the save
pointer available, the normal case modelled here — runs
`_update_boss_tokens`), an enforcement pass, and an external reset of a
world's on-disk counter by the game process. -/
inductive BossEv
  | recvToken (w : Int)
  | enforcePass
  | reset (w : Int) (v : Nat)

def bossStep (costs : Int → Nat) (s : BossState) : BossEv → BossState
  | .recvToken w =>
      update_boss_tokens costs
        { s with boss_token_counts := fun w2 =>
            if w2 = w then s.boss_token_counts w2 + 1 else s.boss_token_counts w2 }
  | .enforcePass => enforce_boss_counters s
  | .reset w v =>
      { s with counter := fun w2 => if w2 = w then some v else s.counter w2 }

def bossRun (costs : Int → Nat) (s : BossState) (evs : List BossEv) : BossState :=
  evs.foldl (bossStep costs) s

/-- Session start: no tokens received, nothing unlocked, arbitrary
initial on-disk counters. -/
def bossInit (d0 : Int → Option Nat) : BossState :=
  ⟨fun _ => 0, ∅, d0⟩

theorem updateBossWorld_counts (costs : Int → Nat) (s : BossState) (w : Int) :
    (updateBossWorld costs s w).boss_token_counts = s.boss_token_counts := by
  unfold updateBossWorld
  split_ifs <;> first
    | rfl
    | (cases BOSS_UNLOCK_THRESHOLDS w <;> rfl)

theorem updateBossWorld_unlocked_mono (costs : Int → Nat) (s : BossState) (w w' : Int)
    (h : w' ∈ s.boss_unlocked) : w' ∈ (updateBossWorld costs s w).boss_unlocked := by
  unfold updateBossWorld
  split_ifs <;> first
    | exact h
    | (cases BOSS_UNLOCK_THRESHOLDS w <;> simp [Finset.mem_insert, h])

theorem updateBossWorld_unlocked_sound (costs : Int → Nat) (s : BossState) (w w' : Int)
    (h : w' ∈ (updateBossWorld costs s w).boss_unlocked) :
    w' ∈ s.boss_unlocked ∨ (w' = w ∧ costs w ≤ s.boss_token_counts w) := by
  unfold updateBossWorld at h
  split_ifs at h with h1 h2
  · exact Or.inl h
  · cases hth : BOSS_UNLOCK_THRESHOLDS w with
    | none =>
      rw [hth] at h
      exact Or.inl h
    | some t =>
      rw [hth] at h
      simp only [Finset.mem_insert] at h
      rcases h with rfl | h
      · exact Or.inr ⟨rfl, h2⟩
      · exact Or.inl h
  · exact Or.inl h

theorem updateBossWorld_unlocks (costs : Int → Nat) (s : BossState) (w : Int) (t : Nat)
    (hth : BOSS_UNLOCK_THRESHOLDS w = some t)
    (hreach : costs w ≤ s.boss_token_counts w) (hpos : 0 < costs w) :
    w ∈ (updateBossWorld costs s w).boss_unlocked := by
  unfold updateBossWorld
  by_cases h1 : costs w = 0 ∨ w ∈ s.boss_unlocked
  · rcases h1 with h1 | h1
    · omega
    · rw [if_pos (Or.inr h1)]
      exact h1
  · rw [if_neg h1, if_pos hreach, hth]
    exact Finset.mem_insert_self w _

theorem updateFold_counts (costs : Int → Nat) (l : List Int) (s : BossState) :
    (l.foldl (updateBossWorld costs) s).boss_token_counts = s.boss_token_counts := by
  induction l generalizing s with
  | nil => rfl
  | cons a l ih => rw [List.foldl_cons, ih, updateBossWorld_counts]

theorem updateFold_unlocked_mono (costs : Int → Nat) (l : List Int) (s : BossState)
    (w' : Int) (h : w' ∈ s.boss_unlocked) :
    w' ∈ (l.foldl (updateBossWorld costs) s).boss_unlocked := by
  induction l generalizing s with
  | nil => exact h
  | cons a l ih =>
    exact ih _ (updateBossWorld_unlocked_mono costs s a w' h)

theorem updateFold_unlocked_sound (costs : Int → Nat) (l : List Int) (s : BossState)
    (w' : Int) (h : w' ∈ (l.foldl (updateBossWorld costs) s).boss_unlocked) :
    w' ∈ s.boss_unlocked ∨ costs w' ≤ s.boss_token_counts w' := by
  induction l generalizing s with
  | nil => exact Or.inl h
  | cons a l ih =>
    rcases ih _ h with h' | h'
    · rcases updateBossWorld_unlocked_sound costs s a w' h' with h'' | ⟨rfl, h''⟩
      · exact Or.inl h''
      · exact Or.inr h''
    · rw [updateBossWorld_counts] at h'
      exact Or.inr h'

theorem updateFold_unlocks (costs : Int → Nat) (l : List Int) (s : BossState)
    (w : Int) (t : Nat) (hw : w ∈ l) (hth : BOSS_UNLOCK_THRESHOLDS w = some t)
    (hreach : costs w ≤ s.boss_token_counts w) (hpos : 0 < costs w) :
    w ∈ (l.foldl (updateBossWorld costs) s).boss_unlocked := by
  induction l generalizing s with
  | nil => cases hw
  | cons a l ih =>
    rw [List.foldl_cons]
    rcases List.mem_cons.mp hw with rfl | hw'
    · exact updateFold_unlocked_mono costs l _ w
        (updateBossWorld_unlocks costs s w t hth hreach hpos)
    · exact ih _ hw' (by rw [updateBossWorld_counts]; exact hreach)

/-- The two session invariants: an unlocked world has reached its cost,
and (for token-gated worlds 1..6) a reached cost means unlocked. -/
def BossInv (costs : Int → Nat) (s : BossState) : Prop :=
  (∀ w, w ∈ s.boss_unlocked → costs w ≤ s.boss_token_counts w) ∧
  (∀ w, 1 ≤ w → w ≤ 6 → 0 < costs w →
    costs w ≤ s.boss_token_counts w → w ∈ s.boss_unlocked)

theorem thresholds_exist (w : Int) (h1 : 1 ≤ w) (h6 : w ≤ 6) :
    ∃ t, BOSS_UNLOCK_THRESHOLDS w = some t ∧ (t = 17 ∨ t = 5) := by
  unfold BOSS_UNLOCK_THRESHOLDS
  by_cases h : w = 1 ∨ w = 2 ∨ w = 3 ∨ w = 4 ∨ w = 5
  · rw [if_pos h]
    exact ⟨17, rfl, Or.inl rfl⟩
  · rw [if_neg h, if_pos (by omega)]
    exact ⟨5, rfl, Or.inr rfl⟩

theorem bossInv_update_boss_tokens (costs : Int → Nat) (s2 : BossState)
    (hsound2 : ∀ w, w ∈ s2.boss_unlocked → costs w ≤ s2.boss_token_counts w) :
    BossInv costs (update_boss_tokens costs s2) := by
  have hcounts : (update_boss_tokens costs s2).boss_token_counts
      = s2.boss_token_counts := updateFold_counts costs _ s2
  constructor
  · intro w' hw'
    rw [hcounts]
    rcases updateFold_unlocked_sound costs _ s2 w' hw' with h' | h'
    · exact hsound2 w' h'
    · exact h'
  · intro w' h1 h6 hpos hreach
    obtain ⟨t, hth, -⟩ := thresholds_exist w' h1 h6
    rw [hcounts] at hreach
    refine updateFold_unlocks costs _ s2 w' t ?_ hth hreach hpos
    have hm : w' = 1 ∨ w' = 2 ∨ w' = 3 ∨ w' = 4 ∨ w' = 5 ∨ w' = 6 := by omega
    rcases hm with rfl | rfl | rfl | rfl | rfl | rfl <;> decide

theorem bossInv_step (costs : Int → Nat) (s : BossState) (ev : BossEv)
    (h : BossInv costs s) : BossInv costs (bossStep costs s ev) := by
  obtain ⟨hsound, hcomplete⟩ := h
  cases ev with
  | recvToken w =>
    refine bossInv_update_boss_tokens costs _ ?_
    intro w' hw'
    have hs := hsound w' hw'
    show costs w' ≤ (if w' = w then s.boss_token_counts w' + 1
      else s.boss_token_counts w')
    by_cases he : w' = w
    · rw [if_pos he]
      omega
    · rw [if_neg he]
      exact hs
  | enforcePass => exact ⟨hsound, hcomplete⟩
  | reset w v => exact ⟨hsound, hcomplete⟩

theorem bossInv_run (costs : Int → Nat) (s : BossState) (evs : List BossEv)
    (h : BossInv costs s) : BossInv costs (bossRun costs s evs) := by
  induction evs generalizing s with
  | nil => exact h
  | cons ev evs ih => exact ih _ (bossInv_step costs s ev h)

theorem bossStep_unlocked_mono (costs : Int → Nat) (s : BossState) (ev : BossEv)
    (w : Int) (h : w ∈ s.boss_unlocked) : w ∈ (bossStep costs s ev).boss_unlocked := by
  cases ev with
  | recvToken w' => exact updateFold_unlocked_mono costs _ _ w h
  | enforcePass => exact h
  | reset w' v => exact h

theorem bossRun_unlocked_mono (costs : Int → Nat) (s : BossState) (evs : List BossEv)
    (w : Int) (h : w ∈ s.boss_unlocked) : w ∈ (bossRun costs s evs).boss_unlocked := by
  induction evs generalizing s with
  | nil => exact h
  | cons ev evs ih => exact ih _ (bossStep_unlocked_mono costs s ev w h)

/-- **C2**: along any session trace in token mode, for a world `w`
(1..6) with a positive token cost: while the received count is below the
cost, `w` is locked and an enforcement pass overwrites any positive
readable on-disk counter with 0; once the count reaches the cost, `w` is
in `boss_unlocked`, permanently so under any further events; and for an
unlocked world an enforcement pass rewrites a readable counter sitting
below the native threshold (17 for worlds 1-5, 5 for world 6) back up to
exactly that threshold — surviving external resets. -/
theorem boss_token_gate_correct
    (costs : Int → Nat) (d0 : Int → Option Nat) (evs evs2 : List BossEv)
    (w : Int) (c : Nat) (h1 : 1 ≤ w) (h6 : w ≤ 6) (hcost : 0 < costs w) :
    ((bossRun costs (bossInit d0) evs).boss_token_counts w < costs w →
      w ∉ (bossRun costs (bossInit d0) evs).boss_unlocked ∧
      ((bossRun costs (bossInit d0) evs).counter w = some c → 0 < c →
        (enforce_boss_counters (bossRun costs (bossInit d0) evs)).counter w
          = some 0)) ∧
    (costs w ≤ (bossRun costs (bossInit d0) evs).boss_token_counts w →
      w ∈ (bossRun costs (bossInit d0) evs).boss_unlocked) ∧
    (w ∈ (bossRun costs (bossInit d0) evs).boss_unlocked →
      w ∈ (bossRun costs (bossRun costs (bossInit d0) evs) evs2).boss_unlocked) ∧
    (∀ t, w ∈ (bossRun costs (bossInit d0) evs).boss_unlocked →
      BOSS_UNLOCK_THRESHOLDS w = some t →
      (bossRun costs (bossInit d0) evs).counter w = some c → c < t →
      (enforce_boss_counters (bossRun costs (bossInit d0) evs)).counter w
        = some t) := by
  have hinv : BossInv costs (bossRun costs (bossInit d0) evs) := by
    refine bossInv_run costs _ evs ⟨?_, ?_⟩
    · intro w' hw'
      cases hw'
    · intro w' _ _ hpos hreach
      simp only [bossInit] at hreach
      omega
  set s := bossRun costs (bossInit d0) evs with hs
  refine ⟨?_, ?_, ?_, ?_⟩
  · intro hbelow
    have hnot : w ∉ s.boss_unlocked := fun hmem => by
      have := hinv.1 w hmem
      omega
    refine ⟨hnot, fun hc hcpos => ?_⟩
    show (if w ∈ s.boss_unlocked then _ else _) = some 0
    rw [if_neg hnot, if_pos (show (1:Int) ≤ w ∧ w ≤ 6 from ⟨h1, h6⟩)]
    simp only [hc]
    rw [if_pos hcpos]
  · intro hreach
    exact hinv.2 w h1 h6 hcost hreach
  · intro hmem
    exact bossRun_unlocked_mono costs s evs2 w hmem
  · intro t hmem hth hc hlt
    show (if w ∈ s.boss_unlocked then _ else _) = some t
    rw [if_pos hmem, hth]
    simp only [hc]
    rw [if_pos hlt]
    have ht : t = 17 ∨ t = 5 := by
      obtain ⟨t2, hth2, ht2⟩ := thresholds_exist w h1 h6
      rw [hth] at hth2
      cases hth2
      exact ht2
    congr 1
    omega

/-- **C2 witness**: the theorem at the claim's scenario — cost 3 for
world 1, native threshold 17, initial on-disk counter 5: after 2 tokens
an enforcement pass forces the counter to 0; after the 3rd token world 1
is unlocked, and even after the game resets the counter to 0 the next
pass raises it back to 17. -/
theorem boss_token_gate_correct_witness :
    (enforce_boss_counters (bossRun (fun w => if w = 1 then 3 else 0)
        (bossInit fun _ => some 5)
        [.recvToken 1, .recvToken 1])).counter 1 = some 0 ∧
    1 ∈ (bossRun (fun w => if w = 1 then 3 else 0) (bossInit fun _ => some 5)
        [.recvToken 1, .recvToken 1, .recvToken 1]).boss_unlocked ∧
    (enforce_boss_counters (bossRun (fun w => if w = 1 then 3 else 0)
        (bossInit fun _ => some 5)
        [.recvToken 1, .recvToken 1, .recvToken 1, .reset 1 0])).counter 1
      = some 17 := by
  refine ⟨?_, ?_, ?_⟩
  · exact ((boss_token_gate_correct (fun w => if w = 1 then 3 else 0)
      (fun _ => some 5) [.recvToken 1, .recvToken 1] [] 1 5
      (by norm_num) (by norm_num) (by norm_num)).1 (by decide)).2
      (by decide) (by norm_num)
  · exact (boss_token_gate_correct (fun w => if w = 1 then 3 else 0)
      (fun _ => some 5) [.recvToken 1, .recvToken 1, .recvToken 1] [] 1 5
      (by norm_num) (by norm_num) (by norm_num)).2.1 (by decide)
  · exact (boss_token_gate_correct (fun w => if w = 1 then 3 else 0)
      (fun _ => some 5)
      [.recvToken 1, .recvToken 1, .recvToken 1, .reset 1 0] [] 1 0
      (by norm_num) (by norm_num) (by norm_num)).2.2.2 17 (by decide)
      (by decide) (by decide) (by norm_num)

/-! ## Progression model and received items (claim C6) -/

/-- The item-id → effect tables of the client module. -/
def WORLD_ACCESS_ITEM_IDS (iid : Int) : Option Int :=
  if iid = BASE_ID + 1 then some 2
  else if iid = BASE_ID + 2 then some 3
  else if iid = BASE_ID + 3 then some 4
  else if iid = BASE_ID + 4 then some 5
  else if iid = BASE_ID + 7 then some 6
  else if iid = BASE_ID + 8 then some 7
  else none

def ITEM_BANDAGE : Int := BASE_ID + 5

/-- `CHARACTER_ITEMS` reduced to its bitmask bit (names dropped). -/
def CHARACTER_ITEMS (iid : Int) : Option Nat :=
  if iid = BASE_ID + 10 then some 2
  else if iid = BASE_ID + 11 then some 3
  else if iid = BASE_ID + 31 then some 5
  else if iid = BASE_ID + 32 then some 6
  else if iid = BASE_ID + 12 then some 7
  else if iid = BASE_ID + 13 then some 10
  else if iid = BASE_ID + 14 then some 11
  else if iid = BASE_ID + 15 then some 12
  else if iid = BASE_ID + 16 then some 13
  else if iid = BASE_ID + 17 then some 14
  else if iid = BASE_ID + 18 then some 16
  else if iid = BASE_ID + 19 then some 18
  else if iid = BASE_ID + 20 then some 19
  else if iid = BASE_ID + 21 then some 20
  else if iid = BASE_ID + 22 then some 21
  else if iid = BASE_ID + 23 then some 22
  else if iid = BASE_ID + 24 then some 23
  else if iid = BASE_ID + 25 then some 24
  else if iid = BASE_ID + 26 then some 25
  else if iid = BASE_ID + 27 then some 26
  else if iid = BASE_ID + 28 then some 27
  else if iid = BASE_ID + 29 then some 28
  else if iid = BASE_ID + 30 then some 29
  else none

def BOSS_TOKEN_IDS (iid : Int) : Option Int :=
  if iid = BASE_ID + 33 then some 1
  else if iid = BASE_ID + 34 then some 2
  else if iid = BASE_ID + 35 then some 3
  else if iid = BASE_ID + 36 then some 4
  else if iid = BASE_ID + 37 then some 5
  else if iid = BASE_ID + 38 then some 6
  else none

def DARK_ACCESS_IDS (iid : Int) : Option Int :=
  if iid = BASE_ID + 100 then some 1
  else if iid = BASE_ID + 101 then some 2
  else if iid = BASE_ID + 102 then some 3
  else if iid = BASE_ID + 103 then some 4
  else if iid = BASE_ID + 104 then some 5
  else none

/-- The progression-model fields of `APClient` mutated by received items. -/
structure Prog where
  allowed_worlds : Finset Int
  bandage_count : Nat
  character_bits : Nat
  boss_token_count : Nat
  boss_token_counts : Int → Nat
  dark_access_counts : Int → Nat
  boss_unlocked : Finset Int

/-- The model effect of one `_update_boss_tokens` loop iteration on the
progression fields (its `write_boss_counter` companion is a game-memory
write, i.e. enforcement, not model state). -/
def progUpdateBossWorld (costs : Int → Nat) (p : Prog) (w : Int) : Prog :=
  if costs w = 0 ∨ w ∈ p.boss_unlocked then p
  else if costs w ≤ p.boss_token_counts w then
    match BOSS_UNLOCK_THRESHOLDS w with
    | some _ => { p with boss_unlocked := insert w p.boss_unlocked }
    | none => p
  else p

/-- The per-item effect on the progression model, shared by the initial
item sync (monitor lines 1562-1583, where `_update_boss_tokens` runs once
after the loop rather than per token — the same additive effect) and the
steady-state item loop (lines 1654-1725): a world-access item inserts its
world; a bandage increments the count; a character item ORs its bit in; a
boss token bumps both counters and (in token mode) runs the unlock check;
a dark-access item bumps its world's count.  Unknown ids do nothing. -/
def applyItem (costs : Int → Nat) (boss_tokens_enabled : Bool)
    (p : Prog) (iid : Int) : Prog :=
  match WORLD_ACCESS_ITEM_IDS iid with
  | some w => { p with allowed_worlds := insert w p.allowed_worlds }
  | none =>
    if iid = ITEM_BANDAGE then { p with bandage_count := p.bandage_count + 1 }
    else
      match CHARACTER_ITEMS iid with
      | some bit => { p with character_bits := p.character_bits ||| (1 <<< bit) }
      | none =>
        match BOSS_TOKEN_IDS iid with
        | some w =>
          let p2 := { p with
            boss_token_counts := fun w2 => if w2 = w
              then p.boss_token_counts w2 + 1 else p.boss_token_counts w2,
            boss_token_count := p.boss_token_count + 1 }
          if boss_tokens_enabled then
            [1, 2, 3, 4, 5, 6].foldl (progUpdateBossWorld costs) p2
          else p2
        | none =>
          match DARK_ACCESS_IDS iid with
          | some w => { p with dark_access_counts := fun w2 => if w2 = w
              then p.dark_access_counts w2 + 1 else p.dark_access_counts w2 }
          | none => p

/-- Pointwise "never un-grants" order on the progression model. -/
def ProgLE (p q : Prog) : Prop :=
  p.allowed_worlds ⊆ q.allowed_worlds ∧
  p.bandage_count ≤ q.bandage_count ∧
  (∀ k, p.character_bits.testBit k = true → q.character_bits.testBit k = true) ∧
  p.boss_token_count ≤ q.boss_token_count ∧
  (∀ w, p.boss_token_counts w ≤ q.boss_token_counts w) ∧
  (∀ w, p.dark_access_counts w ≤ q.dark_access_counts w) ∧
  p.boss_unlocked ⊆ q.boss_unlocked

theorem progLE_refl (p : Prog) : ProgLE p p :=
  ⟨Finset.Subset.refl _, le_refl _, fun _ h => h, le_refl _,
   fun _ => le_refl _, fun _ => le_refl _, Finset.Subset.refl _⟩

theorem progLE_trans {p q r : Prog} (h1 : ProgLE p q) (h2 : ProgLE q r) :
    ProgLE p r :=
  ⟨h1.1.trans h2.1, h1.2.1.trans h2.2.1,
   fun k hk => h2.2.2.1 k (h1.2.2.1 k hk),
   h1.2.2.2.1.trans h2.2.2.2.1,
   fun w => (h1.2.2.2.2.1 w).trans (h2.2.2.2.2.1 w),
   fun w => (h1.2.2.2.2.2.1 w).trans (h2.2.2.2.2.2.1 w),
   h1.2.2.2.2.2.2.trans h2.2.2.2.2.2.2⟩

theorem progUpdateBossWorld_mono (costs : Int → Nat) (p : Prog) (w : Int) :
    ProgLE p (progUpdateBossWorld costs p w) := by
  unfold progUpdateBossWorld
  split_ifs with h1 h2
  · exact progLE_refl p
  · cases BOSS_UNLOCK_THRESHOLDS w with
    | some t =>
      exact ⟨Finset.Subset.refl _, le_refl _, fun _ h => h, le_refl _,
        fun _ => le_refl _, fun _ => le_refl _, Finset.subset_insert _ _⟩
    | none => exact progLE_refl p
  · exact progLE_refl p

theorem progUpdateFold_mono (costs : Int → Nat) (l : List Int) (p : Prog) :
    ProgLE p (l.foldl (progUpdateBossWorld costs) p) := by
  induction l generalizing p with
  | nil => exact progLE_refl p
  | cons a l ih =>
    exact progLE_trans (progUpdateBossWorld_mono costs p a)
      (ih (progUpdateBossWorld costs p a))

theorem applyItem_mono (costs : Int → Nat) (be : Bool) (p : Prog) (iid : Int) :
    ProgLE p (applyItem costs be p iid) := by
  unfold applyItem
  cases WORLD_ACCESS_ITEM_IDS iid with
  | some w =>
    exact ⟨Finset.subset_insert _ _, le_refl _, fun _ h => h, le_refl _,
      fun _ => le_refl _, fun _ => le_refl _, Finset.Subset.refl _⟩
  | none =>
    dsimp only
    by_cases hb : iid = ITEM_BANDAGE
    · rw [if_pos hb]
      exact ⟨Finset.Subset.refl _, Nat.le_succ _, fun _ h => h, le_refl _,
        fun _ => le_refl _, fun _ => le_refl _, Finset.Subset.refl _⟩
    · rw [if_neg hb]
      cases CHARACTER_ITEMS iid with
      | some bit =>
        refine ⟨Finset.Subset.refl _, le_refl _, fun k hk => ?_, le_refl _,
          fun _ => le_refl _, fun _ => le_refl _, Finset.Subset.refl _⟩
        rw [Nat.testBit_or, hk, Bool.true_or]
      | none =>
        dsimp only
        cases BOSS_TOKEN_IDS iid with
        | some w =>
          dsimp only
          have h2 : ProgLE p { p with
              boss_token_counts := fun w2 => if w2 = w
                then p.boss_token_counts w2 + 1 else p.boss_token_counts w2,
              boss_token_count := p.boss_token_count + 1 } := by
            refine ⟨Finset.Subset.refl _, le_refl _, fun _ h => h, Nat.le_succ _,
              fun w2 => ?_, fun _ => le_refl _, Finset.Subset.refl _⟩
            by_cases he : w2 = w
            · simp only [if_pos he]
              exact Nat.le_succ _
            · simp only [if_neg he]
              exact le_refl _
          by_cases hbe : be = true
          · rw [if_pos hbe]
            exact progLE_trans h2 (progUpdateFold_mono costs _ _)
          · rw [if_neg hbe]
            exact h2
        | none =>
          dsimp only
          cases DARK_ACCESS_IDS iid with
          | some w =>
            refine ⟨Finset.Subset.refl _, le_refl _, fun _ h => h, le_refl _,
              fun _ => le_refl _, fun w2 => ?_, Finset.Subset.refl _⟩
            by_cases he : w2 = w
            · simp only [if_pos he]
              exact Nat.le_succ _
            · simp only [if_neg he]
              exact le_refl _
          | none => exact progLE_refl p

/-- **C6**: over any sequence of received-item events, every
progression-model field is non-decreasing — `allowed_worlds`,
`boss_unlocked` and the set bits of `character_bits` only grow, and
`bandage_count`, `boss_token_count` and the per-world
`boss_token_counts` / `dark_access_counts` only increase; no
item-processing path un-grants anything. -/
theorem progression_model_monotone (costs : Int → Nat)
    (boss_tokens_enabled : Bool) (items : List Int) (p : Prog) :
    ProgLE p (items.foldl (applyItem costs boss_tokens_enabled) p) := by
  induction items generalizing p with
  | nil => exact progLE_refl p
  | cons iid items ih =>
    exact progLE_trans (applyItem_mono costs boss_tokens_enabled p iid)
      (ih (applyItem costs boss_tokens_enabled p iid))

/-! ## A+ grade detection (`_check_aplus` / `_aplus_sweep`, claims C3, C5)

The client state these detectors touch is `locations_checked` and
`aplus_logged` (an id is added to `aplus_logged` exactly when the A+ log
line is emitted, so "logged" is tracked by that set); the
`fake_aplus_times` marker set, the `real_best_times` shadow map and the
`dark_lock_enabled` flag are read-only here and passed as parameters. -/

structure ACtx where
  locations_checked : Finset Int
  aplus_logged : Finset Int
  deriving DecidableEq

/-- The dark-lock suppressed-time substitution both detectors perform:
if dark lock is on, the region is light, the world is 1..5 and the read
time is over par, substitute the remembered real best time when it is
positive and qualifying. -/
def effTime (dle : Bool) (rbt : Int × Int → Option ℚ) (world li : Int)
    (region : String) (t par : ℚ) : ℚ :=
  if dle = true ∧ region = "light" ∧ 1 ≤ world ∧ world ≤ 5 ∧ par < t then
    match rbt (world, li) with
    | some real => if 0 < real ∧ real ≤ par then real else t
    | none => t
  else t

/-- `APClient._check_aplus`: returns the updated `(state, checks)` pair.
Guard order follows the source: completion bit, positive time, par
exists, dark-lock substitution, synthetic marker, par comparison; the
log + `aplus_logged.add` happen together, and the id goes into the
outbound batch only when `aplus_enabled`. -/
def check_aplus (m : Mem) (sp : Int) (dle : Bool)
    (rbt : Int × Int → Option ℚ) (fake : Finset (Int × Int))
    (world li : Int) (region : String) (checks : List Int)
    (aplus_enabled : Bool) (st : ACtx) : ACtx × List Int :=
  let comp := read_comp m sp world li region
  if comp < 0 ∨ comp.toNat &&& FLAG_COMPLETE = 0 then (st, checks)
  else
    let t := read_time m sp world li region
    if t ≤ 0 then (st, checks)
    else
      match get_par_time world li region with
      | none => (st, checks)
      | some par =>
        if (world, li) ∈ fake ∧ region = "light" then (st, checks)
        else if par < effTime dle rbt world li region t par then (st, checks)
        else
          match get_aplus_location_id world li region with
          | some aid =>
            if aid ∉ st.locations_checked ∧ aid ∉ st.aplus_logged then
              ({ st with aplus_logged := insert aid st.aplus_logged },
               if aplus_enabled then checks ++ [aid] else checks)
            else (st, checks)
          | none => (st, checks)

/-- One level of `_aplus_sweep`'s inner loop: queue an unreported
completion, then (only when `aplus_enabled`) run the A+ checks.  The
sweep's A+ block duplicates `_check_aplus`'s guard chain verbatim except
that its append is unconditional; it therefore coincides with
`check_aplus` applied at `aplus_enabled := true` — unlike the real
`_check_aplus` path, the sweep neither logs nor queues anything A+
related when the flag is off. -/
def sweepLevelCore (m : Mem) (sp world : Int) (ae dle : Bool)
    (rbt : Int × Int → Option ℚ) (fake : Finset (Int × Int))
    (st : ACtx) (checks : List Int) (region : String) (li : Int) :
    ACtx × List Int :=
  let comp := read_comp m sp world li region
  if comp < 0 ∨ comp.toNat &&& FLAG_COMPLETE = 0 then (st, checks)
  else
    let checks2 :=
      match get_completion_location_id world li region with
      | some loc_id =>
        if loc_id ∉ st.locations_checked then checks ++ [loc_id] else checks
      | none => checks
    if ae = false then (st, checks2)
    else check_aplus m sp dle rbt fake world li region checks2 true st

def sweepLevel (m : Mem) (sp world : Int) (ae dle : Bool)
    (rbt : Int × Int → Option ℚ) (fake : Finset (Int × Int))
    (acc : ACtx × List Int) (pr : String × Int) : ACtx × List Int :=
  sweepLevelCore m sp world ae dle rbt fake acc.1 acc.2 pr.1 pr.2

/-- The region-enablement guards at the top of `_aplus_sweep`'s region
loop (the `continue` conditions, negated). -/
def sweepRegionEnabled (world : Int) (dwe w7e : Bool) (region : String) : Bool :=
  if region = "dark" then
    if (world ≤ 5 ∧ dwe = false) ∨ (world = 6 ∧ dwe = false) ∨
        (world = 7 ∧ w7e = false) then false else true
  else
    if world = 7 ∧ w7e = false then false else true

/-- The (region, level) pairs `_aplus_sweep` iterates, in loop order:
light then dark, each over `range(NUM_LEVELS.get(world, 20))`. -/
def sweepPairs (world : Int) (dwe w7e : Bool) : List (String × Int) :=
  (["light", "dark"].filter (sweepRegionEnabled world dwe w7e)).flatMap
    fun region => (List.range (NUM_LEVELS world)).map
      fun i : Nat => (region, (i : Int))

/-- `APClient._aplus_sweep` over one world, starting from `checks = []`. -/
def aplus_sweep (m : Mem) (sp world : Int)
    (aplus_enabled dark_world_enabled w7_enabled dle : Bool)
    (rbt : Int × Int → Option ℚ) (fake : Finset (Int × Int))
    (st : ACtx) : ACtx × List Int :=
  (sweepPairs world dark_world_enabled w7_enabled).foldl
    (sweepLevel m sp world aplus_enabled dle rbt fake) (st, [])

/-! ### Behaviour lemmas for the A+ detectors -/

/-- A light level carrying the synthetic marker makes `_check_aplus`
return before any logging or queueing, whatever the disk holds. -/
theorem check_aplus_marker (m : Mem) (sp : Int) (dle : Bool)
    (rbt : Int × Int → Option ℚ) (fake : Finset (Int × Int))
    (world li : Int) (checks : List Int) (ae : Bool) (st : ACtx)
    (hmem : (world, li) ∈ fake) :
    check_aplus m sp dle rbt fake world li "light" checks ae st = (st, checks) := by
  simp only [check_aplus]
  by_cases h1 : read_comp m sp world li "light" < 0 ∨
      (read_comp m sp world li "light").toNat &&& FLAG_COMPLETE = 0
  · rw [if_pos h1]
  · rw [if_neg h1]
    by_cases ht : read_time m sp world li "light" ≤ 0
    · rw [if_pos ht]
    · rw [if_neg ht]
      cases get_par_time world li "light" with
      | none => rfl
      | some par =>
        dsimp only
        rw [if_pos ⟨hmem, trivial⟩]

/-- `_check_aplus` either changes nothing, or logs (and, when the flag is
on, queues) one freshly qualifying A+ id of this very level, guarded by
the synthetic marker and by both dedup sets. -/
theorem check_aplus_spec (m : Mem) (sp : Int) (dle : Bool)
    (rbt : Int × Int → Option ℚ) (fake : Finset (Int × Int))
    (world li : Int) (region : String) (checks : List Int) (ae : Bool)
    (st : ACtx) :
    check_aplus m sp dle rbt fake world li region checks ae st = (st, checks) ∨
    ∃ aid, get_aplus_location_id world li region = some aid ∧
      ¬((world, li) ∈ fake ∧ region = "light") ∧
      aid ∉ st.locations_checked ∧ aid ∉ st.aplus_logged ∧
      check_aplus m sp dle rbt fake world li region checks ae st
        = ({ st with aplus_logged := insert aid st.aplus_logged },
           if ae then checks ++ [aid] else checks) := by
  simp only [check_aplus]
  by_cases h1 : read_comp m sp world li region < 0 ∨
      (read_comp m sp world li region).toNat &&& FLAG_COMPLETE = 0
  · rw [if_pos h1]
    exact Or.inl rfl
  · rw [if_neg h1]
    by_cases ht : read_time m sp world li region ≤ 0
    · rw [if_pos ht]
      exact Or.inl rfl
    · rw [if_neg ht]
      cases get_par_time world li region with
      | none => exact Or.inl rfl
      | some par =>
        dsimp only
        by_cases hF : (world, li) ∈ fake ∧ region = "light"
        · rw [if_pos hF]
          exact Or.inl rfl
        · rw [if_neg hF]
          by_cases hE : par < effTime dle rbt world li region
              (read_time m sp world li region) par
          · rw [if_pos hE]
            exact Or.inl rfl
          · rw [if_neg hE]
            cases hA : get_aplus_location_id world li region with
            | none => exact Or.inl rfl
            | some aid =>
              dsimp only
              by_cases hG : aid ∉ st.locations_checked ∧ aid ∉ st.aplus_logged
              · rw [if_pos hG]
                exact Or.inr ⟨aid, rfl, hF, hG.1, hG.2, rfl⟩
              · rw [if_neg hG]
                exact Or.inl rfl

/-- When every guard of `_check_aplus` passes, the qualifying id is
logged and (flag permitting) queued. -/
theorem check_aplus_hit (m : Mem) (sp : Int) (dle : Bool)
    (rbt : Int × Int → Option ℚ) (fake : Finset (Int × Int))
    (world li : Int) (region : String) (checks : List Int) (ae : Bool)
    (st : ACtx) (par : ℚ) (aid : Int)
    (h1 : ¬(read_comp m sp world li region < 0 ∨
      (read_comp m sp world li region).toNat &&& FLAG_COMPLETE = 0))
    (ht : ¬ read_time m sp world li region ≤ 0)
    (hP : get_par_time world li region = some par)
    (hF : ¬((world, li) ∈ fake ∧ region = "light"))
    (hE : ¬ par < effTime dle rbt world li region
      (read_time m sp world li region) par)
    (hA : get_aplus_location_id world li region = some aid)
    (hG1 : aid ∉ st.locations_checked) (hG2 : aid ∉ st.aplus_logged) :
    check_aplus m sp dle rbt fake world li region checks ae st
      = ({ st with aplus_logged := insert aid st.aplus_logged },
         if ae then checks ++ [aid] else checks) := by
  simp only [check_aplus]
  rw [if_neg h1, if_neg ht, hP]
  dsimp only
  rw [if_neg hF, if_neg hE, hA]
  dsimp only
  rw [if_pos ⟨hG1, hG2⟩]

/-! ### Location id arithmetic -/

theorem get_aplus_light_eq (world li : Int) (h1 : 1 ≤ world) (h5 : world ≤ 5)
    (hl0 : 0 ≤ li) (hl : li < 20) :
    get_aplus_location_id world li "light"
      = some (aplus_light_location_id world li) := by
  unfold get_aplus_location_id
  rw [if_pos rfl, if_pos ⟨h1, h5, hl0, hl⟩]

theorem get_completion_range (world li : Int) (region : String) (c : Int)
    (h : get_completion_location_id world li region = some c) :
    (BASE_ID + 1 ≤ c ∧ c ≤ BASE_ID + 450) ∨
    (BASE_ID + 811 ≤ c ∧ c ≤ BASE_ID + 850) := by
  unfold get_completion_location_id level_location_id w6_level_location_id
    w7_light_location_id dark_level_location_id w6_dark_level_location_id
    w7_dark_location_id at h
  split_ifs at h <;>
    first
    | exact Option.noConfusion h
    | (simp only [Option.some.injEq] at h; omega)

theorem get_aplus_range (world li : Int) (region : String) (a : Int)
    (h : get_aplus_location_id world li region = some a) :
    BASE_ID + 501 ≤ a ∧ a ≤ BASE_ID + 810 := by
  unfold get_aplus_location_id aplus_light_location_id aplus_dark_location_id
    aplus_w6_light_location_id aplus_w6_dark_location_id
    aplus_w7_light_location_id aplus_w7_dark_location_id
    aplus_warp_location_id at h
  split_ifs at h <;>
    first
    | exact Option.noConfusion h
    | (simp only [Option.some.injEq] at h; omega)

/-- A completion id never collides with an A+ id. -/
theorem completion_ne_aplus (w1 l1 : Int) (r1 : String) (w2 l2 : Int)
    (r2 : String) (c a : Int)
    (hc : get_completion_location_id w1 l1 r1 = some c)
    (ha : get_aplus_location_id w2 l2 r2 = some a) : c ≠ a := by
  have h1 := get_completion_range w1 l1 r1 c hc
  have h2 := get_aplus_range w2 l2 r2 a ha
  omega

/-- Within one world, distinct (level, region) pairs get distinct A+ ids. -/
theorem get_aplus_ne (world li li' : Int) (r r' : String) (a a' : Int)
    (h : get_aplus_location_id world li r = some a)
    (h' : get_aplus_location_id world li' r' = some a')
    (hne : li ≠ li' ∨ r ≠ r') : a ≠ a' := by
  intro heq
  subst heq
  unfold get_aplus_location_id aplus_light_location_id aplus_dark_location_id
    aplus_w6_light_location_id aplus_w6_dark_location_id
    aplus_w7_light_location_id aplus_w7_dark_location_id
    aplus_warp_location_id at h h'
  split_ifs at h h' <;>
    first
    | exact Option.noConfusion h
    | exact Option.noConfusion h'
    | (simp only [Option.some.injEq] at h h'
       rcases hne with hne | hne
       · omega
       · apply hne
         simp_all)
    | (simp only [Option.some.injEq] at h h'
       omega)

/-- Per-level sweep step: the outbound batch only grows, and only by this
level's completion id or its freshly logged, unmarked A+ id;
`locations_checked` never changes; `aplus_logged` grows only by this
level's unmarked A+ id. -/
theorem sweepLevelCore_spec (m : Mem) (sp world : Int) (ae dle : Bool)
    (rbt : Int × Int → Option ℚ) (fake : Finset (Int × Int)) (st : ACtx)
    (checks : List Int) (region : String) (li : Int) :
    ∃ tail,
      (sweepLevelCore m sp world ae dle rbt fake st checks region li).2
        = checks ++ tail ∧
      (∀ x ∈ tail,
        get_completion_location_id world li region = some x ∨
        (get_aplus_location_id world li region = some x ∧
          ¬((world, li) ∈ fake ∧ region = "light") ∧ x ∉ st.aplus_logged)) ∧
      (sweepLevelCore m sp world ae dle rbt fake st checks region li).1.locations_checked
        = st.locations_checked ∧
      (∀ y, y ∈ (sweepLevelCore m sp world ae dle rbt fake st
          checks region li).1.aplus_logged →
        y ∈ st.aplus_logged ∨
        (get_aplus_location_id world li region = some y ∧
          ¬((world, li) ∈ fake ∧ region = "light") ∧ y ∉ st.aplus_logged ∧
          y ∈ tail)) := by
  simp only [sweepLevelCore]
  by_cases h1 : read_comp m sp world li region < 0 ∨
      (read_comp m sp world li region).toNat &&& FLAG_COMPLETE = 0
  · rw [if_pos h1]
    exact ⟨[], by simp, by simp, rfl, fun y hy => Or.inl hy⟩
  · rw [if_neg h1]
    cases hM : get_completion_location_id world li region with
    | none =>
      dsimp only
      by_cases hae : ae = false
      · rw [if_pos hae]
        exact ⟨[], by simp, by simp, rfl, fun y hy => Or.inl hy⟩
      · rw [if_neg hae]
        rcases check_aplus_spec m sp dle rbt fake world li region checks true st
          with heq | ⟨aid, hA, hF, hc1, hc2, heq⟩
        · rw [heq]
          exact ⟨[], by simp, by simp, rfl, fun y hy => Or.inl hy⟩
        · rw [heq]
          refine ⟨[aid], by simp, ?_, rfl, ?_⟩
          · intro x hx
            simp only [List.mem_singleton] at hx
            subst hx
            exact Or.inr ⟨hA, hF, hc2⟩
          · intro y hy
            rcases Finset.mem_insert.mp hy with rfl | hy
            · exact Or.inr ⟨hA, hF, hc2, by simp⟩
            · exact Or.inl hy
    | some loc =>
      dsimp only
      by_cases hin : loc ∉ st.locations_checked
      · rw [if_pos hin]
        by_cases hae : ae = false
        · rw [if_pos hae]
          refine ⟨[loc], by simp, ?_, rfl, fun y hy => Or.inl hy⟩
          intro x hx
          simp only [List.mem_singleton] at hx
          subst hx
          exact Or.inl rfl
        · rw [if_neg hae]
          rcases check_aplus_spec m sp dle rbt fake world li region
            (checks ++ [loc]) true st with heq | ⟨aid, hA, hF, hc1, hc2, heq⟩
          · rw [heq]
            refine ⟨[loc], by simp, ?_, rfl, fun y hy => Or.inl hy⟩
            intro x hx
            simp only [List.mem_singleton] at hx
            subst hx
            exact Or.inl rfl
          · rw [heq]
            refine ⟨[loc, aid], by simp, ?_, rfl, ?_⟩
            · intro x hx
              simp only [List.mem_cons, List.mem_singleton] at hx
              rcases hx with rfl | rfl | h
              · exact Or.inl rfl
              · exact Or.inr ⟨hA, hF, hc2⟩
              · cases h
            · intro y hy
              rcases Finset.mem_insert.mp hy with rfl | hy
              · exact Or.inr ⟨hA, hF, hc2, by simp⟩
              · exact Or.inl hy
      · rw [if_neg hin]
        by_cases hae : ae = false
        · rw [if_pos hae]
          exact ⟨[], by simp, by simp, rfl, fun y hy => Or.inl hy⟩
        · rw [if_neg hae]
          rcases check_aplus_spec m sp dle rbt fake world li region checks true st
            with heq | ⟨aid, hA, hF, hc1, hc2, heq⟩
          · rw [heq]
            exact ⟨[], by simp, by simp, rfl, fun y hy => Or.inl hy⟩
          · rw [heq]
            refine ⟨[aid], by simp, ?_, rfl, ?_⟩
            · intro x hx
              simp only [List.mem_singleton] at hx
              subst hx
              exact Or.inr ⟨hA, hF, hc2⟩
            · intro y hy
              rcases Finset.mem_insert.mp hy with rfl | hy
              · exact Or.inr ⟨hA, hF, hc2, by simp⟩
              · exact Or.inl hy

theorem sweepFold_mem_mono (m : Mem) (sp world : Int) (ae dle : Bool)
    (rbt : Int × Int → Option ℚ) (fake : Finset (Int × Int))
    (l : List (String × Int)) (acc : ACtx × List Int) (x : Int)
    (hx : x ∈ acc.2) :
    x ∈ (l.foldl (sweepLevel m sp world ae dle rbt fake) acc).2 := by
  induction l generalizing acc with
  | nil => exact hx
  | cons pr l ih =>
    refine ih (sweepLevel m sp world ae dle rbt fake acc pr) ?_
    obtain ⟨tail, heq, -, -, -⟩ :=
      sweepLevelCore_spec m sp world ae dle rbt fake acc.1 acc.2 pr.1 pr.2
    show x ∈ (sweepLevelCore m sp world ae dle rbt fake acc.1 acc.2 pr.1 pr.2).2
    rw [heq]
    exact List.mem_append.mpr (Or.inl hx)

theorem sweepFold_checked (m : Mem) (sp world : Int) (ae dle : Bool)
    (rbt : Int × Int → Option ℚ) (fake : Finset (Int × Int))
    (l : List (String × Int)) (acc : ACtx × List Int) :
    (l.foldl (sweepLevel m sp world ae dle rbt fake) acc).1.locations_checked
      = acc.1.locations_checked := by
  induction l generalizing acc with
  | nil => rfl
  | cons pr l ih =>
    rw [List.foldl_cons, ih]
    obtain ⟨-, -, -, hchk, -⟩ :=
      sweepLevelCore_spec m sp world ae dle rbt fake acc.1 acc.2 pr.1 pr.2
    exact hchk

/-- An id that no iterated level can produce — every completion id
differs from it, and any level whose A+ id equals it is
marker-suppressed — never enters the outbound batch, and enters
`aplus_logged` only if it was already there. -/
theorem sweepFold_absent (m : Mem) (sp world : Int) (ae dle : Bool)
    (rbt : Int × Int → Option ℚ) (fake : Finset (Int × Int))
    (l : List (String × Int)) (acc : ACtx × List Int) (a : Int)
    (hC : ∀ pr : String × Int, ∀ c,
      get_completion_location_id world pr.2 pr.1 = some c → c ≠ a)
    (hA : ∀ pr : String × Int, ∀ y,
      get_aplus_location_id world pr.2 pr.1 = some y → y = a →
      ((world, pr.2) ∈ fake ∧ pr.1 = "light"))
    (hacc : a ∉ acc.2) :
    a ∉ (l.foldl (sweepLevel m sp world ae dle rbt fake) acc).2 ∧
    (a ∈ (l.foldl (sweepLevel m sp world ae dle rbt fake) acc).1.aplus_logged →
      a ∈ acc.1.aplus_logged) := by
  induction l generalizing acc with
  | nil => exact ⟨hacc, fun h => h⟩
  | cons pr l ih =>
    obtain ⟨tail, heq, hmem, hchk, hlog⟩ :=
      sweepLevelCore_spec m sp world ae dle rbt fake acc.1 acc.2 pr.1 pr.2
    have hstep2 : a ∉ (sweepLevel m sp world ae dle rbt fake acc pr).2 := by
      show a ∉ (sweepLevelCore m sp world ae dle rbt fake acc.1 acc.2 pr.1 pr.2).2
      rw [heq]
      intro hmem2
      rcases List.mem_append.mp hmem2 with h | h
      · exact hacc h
      · rcases hmem a h with hcomp | ⟨hap, hnm, -⟩
        · exact hC pr a hcomp rfl
        · exact hnm (hA pr a hap rfl)
    have hsteplog :
        a ∈ (sweepLevel m sp world ae dle rbt fake acc pr).1.aplus_logged →
        a ∈ acc.1.aplus_logged := by
      intro h
      rcases hlog a h with h | ⟨hap, hnm, -, -⟩
      · exact h
      · exact absurd (hA pr a hap rfl) hnm
    obtain ⟨ih1, ih2⟩ := ih (sweepLevel m sp world ae dle rbt fake acc pr) hstep2
    exact ⟨ih1, fun hmem3 => hsteplog (ih2 hmem3)⟩

theorem sweepLevelCore_hits_completion (m : Mem) (sp world : Int) (ae dle : Bool)
    (rbt : Int × Int → Option ℚ) (fake : Finset (Int × Int)) (st : ACtx)
    (cks : List Int) (region : String) (li c : Int)
    (h1 : ¬(read_comp m sp world li region < 0 ∨
      (read_comp m sp world li region).toNat &&& FLAG_COMPLETE = 0))
    (hM : get_completion_location_id world li region = some c)
    (hnc : c ∉ st.locations_checked) :
    c ∈ (sweepLevelCore m sp world ae dle rbt fake st cks region li).2 := by
  simp only [sweepLevelCore]
  rw [if_neg h1, hM]
  dsimp only
  rw [if_pos hnc]
  by_cases hae : ae = false
  · rw [if_pos hae]
    simp
  · rw [if_neg hae]
    rcases check_aplus_spec m sp dle rbt fake world li region (cks ++ [c]) true st
      with heq | ⟨aid, -, -, -, -, heq⟩ <;> rw [heq] <;> simp

theorem sweepLevelCore_hits_aplus (m : Mem) (sp world : Int) (dle : Bool)
    (rbt : Int × Int → Option ℚ) (fake : Finset (Int × Int)) (st : ACtx)
    (cks : List Int) (region : String) (li aid : Int) (par : ℚ)
    (h1 : ¬(read_comp m sp world li region < 0 ∨
      (read_comp m sp world li region).toNat &&& FLAG_COMPLETE = 0))
    (ht : ¬ read_time m sp world li region ≤ 0)
    (hP : get_par_time world li region = some par)
    (hF : ¬((world, li) ∈ fake ∧ region = "light"))
    (hE : ¬ par < effTime dle rbt world li region
      (read_time m sp world li region) par)
    (hA : get_aplus_location_id world li region = some aid)
    (hnc : aid ∉ st.locations_checked) (hnl : aid ∉ st.aplus_logged) :
    aid ∈ (sweepLevelCore m sp world true dle rbt fake st cks region li).2 := by
  simp only [sweepLevelCore]
  rw [if_neg h1]
  cases hM : get_completion_location_id world li region with
  | none =>
    dsimp only
    rw [if_neg (by simp : ¬(true = false))]
    rw [check_aplus_hit m sp dle rbt fake world li region cks true st par aid
      h1 ht hP hF hE hA hnc hnl]
    simp
  | some loc =>
    dsimp only
    by_cases hin : loc ∉ st.locations_checked
    · rw [if_pos hin, if_neg (by simp : ¬(true = false))]
      rw [check_aplus_hit m sp dle rbt fake world li region (cks ++ [loc]) true st
        par aid h1 ht hP hF hE hA hnc hnl]
      simp
    · rw [if_neg hin, if_neg (by simp : ¬(true = false))]
      rw [check_aplus_hit m sp dle rbt fake world li region cks true st par aid
        h1 ht hP hF hE hA hnc hnl]
      simp

theorem sweepFold_hits_completion (m : Mem) (sp world : Int) (ae dle : Bool)
    (rbt : Int × Int → Option ℚ) (fake : Finset (Int × Int))
    (l : List (String × Int)) (acc : ACtx × List Int) (pr0 : String × Int)
    (c : Int) (L : Finset Int)
    (hin : pr0 ∈ l) (hL : acc.1.locations_checked = L)
    (hhit : ∀ (st2 : ACtx) (cks : List Int), st2.locations_checked = L →
      c ∈ (sweepLevelCore m sp world ae dle rbt fake st2 cks pr0.1 pr0.2).2) :
    c ∈ (l.foldl (sweepLevel m sp world ae dle rbt fake) acc).2 := by
  induction l generalizing acc with
  | nil => cases hin
  | cons pr l ih =>
    rw [List.foldl_cons]
    rcases List.mem_cons.mp hin with rfl | hin'
    · exact sweepFold_mem_mono m sp world ae dle rbt fake l _ c
        (hhit acc.1 acc.2 hL)
    · refine ih _ hin' ?_
      obtain ⟨-, -, -, hchk, -⟩ :=
        sweepLevelCore_spec m sp world ae dle rbt fake acc.1 acc.2 pr.1 pr.2
      rw [show (sweepLevel m sp world ae dle rbt fake acc pr).1.locations_checked
        = acc.1.locations_checked from hchk]
      exact hL

theorem sweepFold_hits_aplus (m : Mem) (sp world : Int) (ae dle : Bool)
    (rbt : Int × Int → Option ℚ) (fake : Finset (Int × Int))
    (l : List (String × Int)) (acc : ACtx × List Int) (pr0 : String × Int)
    (aid : Int) (L : Finset Int)
    (hin : pr0 ∈ l) (hL : acc.1.locations_checked = L)
    (hnl : aid ∉ acc.1.aplus_logged)
    (hhit : ∀ (st2 : ACtx) (cks : List Int), st2.locations_checked = L →
      aid ∉ st2.aplus_logged →
      aid ∈ (sweepLevelCore m sp world ae dle rbt fake st2 cks pr0.1 pr0.2).2) :
    aid ∈ (l.foldl (sweepLevel m sp world ae dle rbt fake) acc).2 := by
  induction l generalizing acc with
  | nil => cases hin
  | cons pr l ih =>
    rw [List.foldl_cons]
    rcases List.mem_cons.mp hin with rfl | hin'
    · exact sweepFold_mem_mono m sp world ae dle rbt fake l _ aid
        (hhit acc.1 acc.2 hL hnl)
    · obtain ⟨tail, heq, hmem, hchk, hlog⟩ :=
        sweepLevelCore_spec m sp world ae dle rbt fake acc.1 acc.2 pr.1 pr.2
      by_cases hlbad :
          aid ∈ (sweepLevel m sp world ae dle rbt fake acc pr).1.aplus_logged
      · rcases hlog aid hlbad with h | ⟨-, -, -, htail⟩
        · exact absurd h hnl
        · refine sweepFold_mem_mono m sp world ae dle rbt fake l _ aid ?_
          show aid ∈ (sweepLevelCore m sp world ae dle rbt fake
            acc.1 acc.2 pr.1 pr.2).2
          rw [heq]
          exact List.mem_append.mpr (Or.inr htail)
      · refine ih _ hin' ?_ hlbad
        rw [show (sweepLevel m sp world ae dle rbt fake acc pr).1.locations_checked
          = acc.1.locations_checked from hchk]
        exact hL

theorem mem_sweepPairs (world : Int) (dwe w7e : Bool) (region : String)
    (li : Int) (hen : sweepRegionEnabled world dwe w7e region = true)
    (hreg : region = "light" ∨ region = "dark")
    (hl0 : 0 ≤ li) (hl : li < (NUM_LEVELS world : Int)) :
    (region, li) ∈ sweepPairs world dwe w7e := by
  unfold sweepPairs
  rw [List.mem_flatMap]
  refine ⟨region, ?_, ?_⟩
  · rw [List.mem_filter]
    refine ⟨?_, hen⟩
    rcases hreg with rfl | rfl <;> simp
  · have hlt : li.toNat < NUM_LEVELS world := by omega
    have hcast : li = ((li.toNat : Nat) : Int) := (Int.toNat_of_nonneg hl0).symm
    rw [hcast]
    exact List.mem_map_of_mem (fun i : Nat => (region, (i : Int)))
      (List.mem_range.mpr hlt)

/-- With the A+ flag off the sweep never touches the client state. -/
theorem sweepFold_state_flag_off (m : Mem) (sp world : Int) (dle : Bool)
    (rbt : Int × Int → Option ℚ) (fake : Finset (Int × Int))
    (l : List (String × Int)) (acc : ACtx × List Int) :
    (l.foldl (sweepLevel m sp world false dle rbt fake) acc).1 = acc.1 := by
  induction l generalizing acc with
  | nil => rfl
  | cons pr l ih =>
    rw [List.foldl_cons, ih]
    show (sweepLevelCore m sp world false dle rbt fake acc.1 acc.2 pr.1 pr.2).1
      = acc.1
    simp only [sweepLevelCore]
    by_cases h1 : read_comp m sp world pr.2 pr.1 < 0 ∨
        (read_comp m sp world pr.2 pr.1).toNat &&& FLAG_COMPLETE = 0
    · rw [if_pos h1]
    · rw [if_neg h1]
      cases hM : get_completion_location_id world pr.2 pr.1 with
      | none =>
        dsimp only
        simp
      | some loc =>
        dsimp only
        by_cases hin : loc ∉ acc.1.locations_checked
        · rw [if_pos hin]
          simp
        · rw [if_neg hin]
          simp

/-- **C3**: a light level currently in the `fake_aplus_times`
synthetic-time marker set produces no A+ grade event regardless of the
on-disk time: `_check_aplus` on it returns with state and outbound batch
untouched, and an `_aplus_sweep` over its world never queues its A+
location id nor newly logs it — only after the marker is removed (which
the client does exactly when it observes a replacement genuine
qualifying time) can the event fire. -/
theorem synthetic_marker_blocks_aplus
    (m : Mem) (sp : Int) (dle ae dwe w7e : Bool)
    (rbt : Int × Int → Option ℚ) (fake : Finset (Int × Int))
    (world li : Int) (checks : List Int) (st : ACtx)
    (hmem : (world, li) ∈ fake) (h1 : 1 ≤ world) (h5 : world ≤ 5)
    (hl0 : 0 ≤ li) (hl : li < 20) :
    check_aplus m sp dle rbt fake world li "light" checks ae st = (st, checks) ∧
    aplus_light_location_id world li
      ∉ (aplus_sweep m sp world ae dwe w7e dle rbt fake st).2 ∧
    (aplus_light_location_id world li
        ∈ (aplus_sweep m sp world ae dwe w7e dle rbt fake st).1.aplus_logged →
      aplus_light_location_id world li ∈ st.aplus_logged) := by
  have haid := get_aplus_light_eq world li h1 h5 hl0 hl
  have hAall : ∀ pr : String × Int, ∀ y,
      get_aplus_location_id world pr.2 pr.1 = some y →
      y = aplus_light_location_id world li →
      ((world, pr.2) ∈ fake ∧ pr.1 = "light") := by
    intro pr y hy hya
    by_cases e1 : pr.2 = li
    · by_cases e2 : pr.1 = "light"
      · exact ⟨by rw [e1]; exact hmem, e2⟩
      · exact absurd hya
          (get_aplus_ne world pr.2 li pr.1 "light" y _ hy haid (Or.inr e2))
    · exact absurd hya
        (get_aplus_ne world pr.2 li pr.1 "light" y _ hy haid (Or.inl e1))
  have habs := sweepFold_absent m sp world ae dle rbt fake
    (sweepPairs world dwe w7e) (st, []) (aplus_light_location_id world li)
    (fun pr c hc =>
      completion_ne_aplus world pr.2 pr.1 world li "light" c _ hc haid)
    hAall (by simp)
  exact ⟨check_aplus_marker m sp dle rbt fake world li checks ae st hmem,
    habs.1, habs.2⟩

/-- **C3 witness**: the theorem applied at a marked level (1, 0) whose
on-disk state genuinely qualifies (complete bit set, time 2.9 under the
3.0 par): neither detector produces anything. -/
theorem synthetic_marker_blocks_aplus_witness :
    check_aplus ⟨fun _ => some 3, fun _ => some 0, fun _ => some 0,
        fun _ => some (29 / 10 : ℚ), fun _ => true⟩ 1 false (fun _ => none)
        {((1 : Int), (0 : Int))} 1 0 "light" [] true ⟨∅, ∅⟩
      = (⟨∅, ∅⟩, []) ∧
    aplus_light_location_id 1 0
      ∉ (aplus_sweep ⟨fun _ => some 3, fun _ => some 0, fun _ => some 0,
        fun _ => some (29 / 10 : ℚ), fun _ => true⟩ 1 1 true false false false
        (fun _ => none) {((1 : Int), (0 : Int))} ⟨∅, ∅⟩).2 ∧
    (aplus_light_location_id 1 0
        ∈ (aplus_sweep ⟨fun _ => some 3, fun _ => some 0, fun _ => some 0,
          fun _ => some (29 / 10 : ℚ), fun _ => true⟩ 1 1 true false false false
          (fun _ => none) {((1 : Int), (0 : Int))} ⟨∅, ∅⟩).1.aplus_logged →
      aplus_light_location_id 1 0 ∈ (⟨∅, ∅⟩ : ACtx).aplus_logged) :=
  synthetic_marker_blocks_aplus
    ⟨fun _ => some 3, fun _ => some 0, fun _ => some 0,
      fun _ => some (29 / 10 : ℚ), fun _ => true⟩ 1 false true false false
    (fun _ => none) {((1 : Int), (0 : Int))} 1 0 [] ⟨∅, ∅⟩
    (by decide) (by norm_num) (by norm_num) (by norm_num) (by norm_num)

/-- **C5 (amended)**: a single `_aplus_sweep` pass queues the completion
id of every feature-enabled level whose complete bit is set but whose id
is unreported; when the A+ flag is ON it also queues (and logs) every
unreported, unlogged, unmarked qualifying A+ id; but when the flag is
OFF the sweep performs no A+ detection or logging at all — the
"always internally logged even when the flag is disabled" behaviour
belongs to `_check_aplus` only, not to the sweep. -/
theorem sweep_queues_unreported
    (m : Mem) (sp world : Int) (ae dwe w7e dle : Bool)
    (rbt : Int × Int → Option ℚ) (fake : Finset (Int × Int)) (st : ACtx)
    (region : String) (li : Int) (c aid : Int) (par : ℚ)
    (hen : sweepRegionEnabled world dwe w7e region = true)
    (hreg : region = "light" ∨ region = "dark")
    (hl0 : 0 ≤ li) (hl : li < (NUM_LEVELS world : Int))
    (hcomp : ¬(read_comp m sp world li region < 0 ∨
      (read_comp m sp world li region).toNat &&& FLAG_COMPLETE = 0)) :
    (get_completion_location_id world li region = some c →
      c ∉ st.locations_checked →
      c ∈ (aplus_sweep m sp world ae dwe w7e dle rbt fake st).2) ∧
    (ae = true →
      ¬ read_time m sp world li region ≤ 0 →
      get_par_time world li region = some par →
      ¬((world, li) ∈ fake ∧ region = "light") →
      ¬ par < effTime dle rbt world li region
        (read_time m sp world li region) par →
      get_aplus_location_id world li region = some aid →
      aid ∉ st.locations_checked → aid ∉ st.aplus_logged →
      aid ∈ (aplus_sweep m sp world ae dwe w7e dle rbt fake st).2) ∧
    (ae = false →
      (aplus_sweep m sp world ae dwe w7e dle rbt fake st).1 = st) := by
  have hpr : (region, li) ∈ sweepPairs world dwe w7e :=
    mem_sweepPairs world dwe w7e region li hen hreg hl0 hl
  refine ⟨?_, ?_, ?_⟩
  · intro hM hnc
    exact sweepFold_hits_completion m sp world ae dle rbt fake
      (sweepPairs world dwe w7e) (st, []) (region, li) c st.locations_checked
      hpr rfl
      (fun st2 cks hL2 =>
        sweepLevelCore_hits_completion m sp world ae dle rbt fake st2 cks
          region li c hcomp hM (by rw [hL2]; exact hnc))
  · intro hae ht hP hF hE hA hnc hnl
    subst hae
    exact sweepFold_hits_aplus m sp world true dle rbt fake
      (sweepPairs world dwe w7e) (st, []) (region, li) aid st.locations_checked
      hpr rfl hnl
      (fun st2 cks hL2 hnl2 =>
        sweepLevelCore_hits_aplus m sp world dle rbt fake st2 cks region li
          aid par hcomp ht hP hF hE hA (by rw [hL2]; exact hnc) hnl2)
  · intro hae
    subst hae
    exact sweepFold_state_flag_off m sp world dle rbt fake
      (sweepPairs world dwe w7e) (st, [])

/-- Memory used for claim C5's concrete evaluations: only level
(1, 1) light's completion byte is set (value 2, complete bit only) and
every slot's stored time is 2.0 seconds. -/
def c5Mem : Mem :=
  ⟨fun a => if a = 1 + 0x64 then some 2 else some 0,
   fun _ => some 0, fun _ => some 0, fun _ => some (2 : ℚ),
   fun _ => true⟩

set_option maxRecDepth 8000 in
/-- **C5 counterexample**: with the A+ feature flag disabled, a sweep
over world 1 — whose level (1, 1, light) is complete with a genuinely
qualifying recorded time (2.9 ≤ par 3.0) and an unlogged A+ id, its
completion already reported — neither logs nor queues anything: the
claim's "grade events discovered this way are always internally logged
even when the A+ reporting feature flag is disabled" is false for the
sweep path. -/
theorem sweep_flag_off_logs_nothing :
    read_comp c5Mem 1 1 0 "light" = 2 ∧
    read_time c5Mem 1 1 0 "light" = 2 ∧
    get_par_time 1 0 "light" = some 3 ∧
    aplus_light_location_id 1 0 ∉ (∅ : Finset Int) ∧
    aplus_sweep c5Mem 1 1 false false false false (fun _ => none) ∅
        ⟨{(7700001 : Int)}, ∅⟩
      = (⟨{(7700001 : Int)}, ∅⟩, []) := by
  refine ⟨by decide, rfl, ?_, by decide, by decide⟩
  norm_num [get_par_time, PAR_TIMES, regionTypeIdx]

/-- **C5 witness**: the amended theorem applied at the same world-1
state with the completion unreported and the flag on: the sweep queues
both the completion id 7700001 and the A+ id 7700501. -/
theorem sweep_queues_unreported_witness :
    (7700001 : Int) ∈ (aplus_sweep c5Mem 1 1 true false false false
      (fun _ => none) ∅ ⟨∅, ∅⟩).2 ∧
    (7700501 : Int) ∈ (aplus_sweep c5Mem 1 1 true false false false
      (fun _ => none) ∅ ⟨∅, ∅⟩).2 := by
  have h := sweep_queues_unreported c5Mem 1 1 true false false false
    (fun _ => none) ∅ ⟨∅, ∅⟩ "light" 0 7700001 7700501 3
    (by decide) (Or.inl rfl) (by decide) (by decide) (by decide)
  exact ⟨h.1 (by decide) (by decide),
    h.2.1 rfl (by norm_num : ¬ (2 : ℚ) ≤ 0)
      (by norm_num [get_par_time, PAR_TIMES, regionTypeIdx])
      (by decide) (by norm_num : ¬ (3 : ℚ) < (2 : ℚ)) (by decide)
      (by decide) (by decide)⟩

/-! ## Goal evaluator (claim C4)

The pending-boss confirmation block of `game_monitor` (the code under
`if boss_confirmed:`), restricted to the state it reads and writes:
`locations_checked`, `bosses_beaten`, `goal_completed`, the number of
`StatusUpdate{30}` messages sent, and the number of "Goal not met"
shortfall log lines.  The achievement re-check and counter re-enforcement
that follow in the source touch none of these fields. -/

structure GoalCfg where
  goal : Int
  bandages_req : Nat
  dark_world_enabled : Bool
  deriving DecidableEq

structure GoalSt where
  locations_checked : Finset Int
  bosses_beaten : Finset Int
  goal_completed : Bool
  status_updates : Nat
  shortfall_logs : Nat
  deriving DecidableEq

/-- `APClient.send_goal_complete`: sends `StatusUpdate{status: 30}` and
flips `goal_completed`, but only the first time. -/
def send_goal_complete (st : GoalSt) : GoalSt :=
  if st.goal_completed then st
  else { st with goal_completed := true,
                 status_updates := st.status_updates + 1 }

/-- One confirmed boss resolution (monitor lines 1838-1914): compute the
location id, and — only when that id is not yet in `locations_checked` —
report it (`send_location_checks` adds it to the set), record the beaten
boss, and evaluate the goal: mode 0 completes on the world-5 boss,
mode 1 when five bosses have been beaten, mode 2 on the world-6 boss,
mode 3 on the dark world-6 boss, each additionally requiring
`bandage_count >= bandages_required`, logging a shortfall otherwise.
An already-checked id skips everything, goal evaluation included. -/
def confirm_boss (cfg : GoalCfg) (bandage_count : Nat)
    (pending_boss_world : Int) (pending_boss_dark : Bool)
    (st : GoalSt) : GoalSt :=
  let loc_id :=
    if pending_boss_world = 6 ∧ pending_boss_dark ∧ cfg.dark_world_enabled
    then dark_boss_location_id
    else boss_location_id pending_boss_world
  if loc_id ∈ st.locations_checked then st
  else
    let st1 := { st with locations_checked := insert loc_id st.locations_checked }
    let st2 := if ¬ pending_boss_dark
      then { st1 with bosses_beaten := insert pending_boss_world st1.bosses_beaten }
      else st1
    if pending_boss_dark then
      if cfg.goal = 3 ∧ cfg.bandages_req ≤ bandage_count then
        send_goal_complete st2
      else if cfg.goal = 3 then
        { st2 with shortfall_logs := st2.shortfall_logs + 1 }
      else st2
    else
      if cfg.goal = 0 ∧ pending_boss_world = 5 then
        if cfg.bandages_req ≤ bandage_count then send_goal_complete st2
        else { st2 with shortfall_logs := st2.shortfall_logs + 1 }
      else if cfg.goal = 1 ∧ 5 ≤ st2.bosses_beaten.card then
        if cfg.bandages_req ≤ bandage_count then send_goal_complete st2
        else { st2 with shortfall_logs := st2.shortfall_logs + 1 }
      else if cfg.goal = 2 ∧ pending_boss_world = 6 then
        if cfg.bandages_req ≤ bandage_count then send_goal_complete st2
        else { st2 with shortfall_logs := st2.shortfall_logs + 1 }
      else st2

/-- **C4**: the claim asserts that a later confirmed qualifying
boss-defeat event re-triggers goal evaluation.  It does not: the entire
goal evaluation is nested under the `loc_id not in locations_checked`
dedup guard, so with goal mode 0 (beat the Rapture boss) and 1 bandage
required, a first confirmed W5 defeat with 0 bandages logs the shortfall
and sends nothing — and a second confirmed W5 defeat, now with enough
bandages, is skipped entirely (the state does not change at all):
`goal_completed` stays false and no `StatusUpdate` is ever sent, where
the claim requires the goal to complete. -/
theorem goal_not_reevaluated_after_shortfall :
    (confirm_boss ⟨0, 1, false⟩ 0 5 false ⟨∅, ∅, false, 0, 0⟩).goal_completed
      = false ∧
    (confirm_boss ⟨0, 1, false⟩ 0 5 false ⟨∅, ∅, false, 0, 0⟩).shortfall_logs
      = 1 ∧
    (confirm_boss ⟨0, 1, false⟩ 0 5 false ⟨∅, ∅, false, 0, 0⟩).status_updates
      = 0 ∧
    boss_location_id 5
      ∈ (confirm_boss ⟨0, 1, false⟩ 0 5 false
          ⟨∅, ∅, false, 0, 0⟩).locations_checked ∧
    confirm_boss ⟨0, 1, false⟩ 5 5 false
        (confirm_boss ⟨0, 1, false⟩ 0 5 false ⟨∅, ∅, false, 0, 0⟩)
      = confirm_boss ⟨0, 1, false⟩ 0 5 false ⟨∅, ∅, false, 0, 0⟩ ∧
    (confirm_boss ⟨0, 1, false⟩ 5 5 false
        (confirm_boss ⟨0, 1, false⟩ 0 5 false ⟨∅, ∅, false, 0, 0⟩)).goal_completed
      = false ∧
    (confirm_boss ⟨0, 1, false⟩ 5 5 false
        (confirm_boss ⟨0, 1, false⟩ 0 5 false ⟨∅, ∅, false, 0, 0⟩)).status_updates
      = 0 := by
  refine ⟨?_, ?_, ?_, ?_, ?_, ?_, ?_⟩ <;> decide

end SMBAP
